import Mathlib

/-!
# Verification of the credential-lifecycle & tiered metrics aggregation engine

Shallow embedding of the `heroes-whoop` repository's engine:

* `src/crypto.ts` — the Secret Vault (`getKey`, `encryptSecret`, `decryptSecret`);
* the server module (shipped unnamed in `src/unnamed/part_007`) — the Tiered
  Aggregator (`/api/leaderboard` route body), the Recovery-Score Extractor
  (`extractRecoveryScore`), the invalid-grant classifier (`isInvalidGrant`),
  member deletion (`deleteMemberByWhoopUserId`), and the Background Session
  Refresher (`startTokenRefreshForSession` / `stopTokenRefreshForSession` /
  the 15-minute interval callback / `/auth/status`);
* the SQLite schema (`migrations/001_init.sql`): `members` and `daily_metrics`
  tables, `UNIQUE(member_id, date)`, `ON DELETE CASCADE`.

Modelling conventions:

* JavaScript numbers are modelled as exact rationals (`ℚ`); `NaN` is modelled
  as `Option.none` where it can arise (`Number(...)` coercions, date deltas).
* Byte strings (`Buffer`s) are `List Nat` of byte values; text is `List Char`
  or `String`.
* Node's `crypto` AES-256-GCM primitive is external to the repository; it is
  modelled as an idealized authenticated cipher: a keyed XOR stream for
  confidentiality and a tag that authenticates exactly the pair
  (nonce, ciphertext).  Real AES-GCM provides the same interface
  computationally.  Base64 encoding/decoding (Node `Buffer` semantics:
  lenient decode that skips `=` and drops trailing sub-byte bits) is
  modelled exactly, because payload-tampering behaviour depends on it.
* Network calls (`refreshAccessToken`, `makeWhoopApiRequest`) are modelled by
  a `Provider` oracle passed as a parameter; each call made by the engine is
  recorded in an event trace so ordering and invocation claims can be stated.
* `Date.now()` and the reference date are parameters (`now : ℤ` in ms,
  `todayStr : String`).
-/

/-! ## Base64 (Node `Buffer.toString('base64')` / `Buffer.from(b64, 'base64')`) -/

/-- The base64 alphabet, in value order. -/
def b64Alphabet : List Char :=
  [ 'A','B','C','D','E','F','G','H','I','J','K','L','M','N','O','P',
    'Q','R','S','T','U','V','W','X','Y','Z',
    'a','b','c','d','e','f','g','h','i','j','k','l','m','n','o','p',
    'q','r','s','t','u','v','w','x','y','z',
    '0','1','2','3','4','5','6','7','8','9','+','/' ]

/-- Character of a 6-bit value. -/
def b64Char (v : Nat) : Char := b64Alphabet.getD v 'A'

/-- Value of a base64 character; `none` for `=`, `.` and anything else
outside the alphabet (Node's lenient decoder skips those). -/
def b64Val (c : Char) : Option Nat := b64Alphabet.findIdx? (· = c)

/-- Encode a byte list in base64, with `=` padding, 3 bytes to 4 chars. -/
def b64Encode : List Nat → List Char
  | [] => []
  | [a] => [b64Char (a / 4), b64Char (a % 4 * 16), '=', '=']
  | [a, b] => [b64Char (a / 4), b64Char (a % 4 * 16 + b / 16), b64Char (b % 16 * 4), '=']
  | a :: b :: c :: rest =>
      b64Char (a / 4) :: b64Char (a % 4 * 16 + b / 16) ::
      b64Char (b % 16 * 4 + c / 64) :: b64Char (c % 64) :: b64Encode rest

/-- Bit-accumulating decoder core: consume 6-bit values, emit a byte whenever
8 bits are available, drop trailing bits that do not fill a byte (Node
behaviour). `acc` holds `nbits` accumulated bits. -/
def b64DecodeBits : List Nat → Nat → Nat → List Nat
  | [], _, _ => []
  | v :: vs, acc, nbits =>
      let acc' := acc * 64 + v
      let nbits' := nbits + 6
      if 8 ≤ nbits' then
        acc' / 2 ^ (nbits' - 8) :: b64DecodeBits vs (acc' % 2 ^ (nbits' - 8)) (nbits' - 8)
      else
        b64DecodeBits vs acc' nbits'

/-- Lenient base64 decode: skip non-alphabet characters (including `=`),
then assemble bytes from the remaining 6-bit groups. -/
def b64Decode (s : List Char) : List Nat :=
  b64DecodeBits (s.filterMap b64Val) 0 0

theorem b64Val_b64Char {v : Nat} (h : v < 64) : b64Val (b64Char v) = some v := by
  revert h
  revert v
  decide

theorem b64Val_eq : b64Val '=' = none := by decide

theorem b64Char_ne_dot (v : Nat) : b64Char v ≠ '.' := by
  by_cases h : v < 64
  · have hall : ∀ w, w < 64 → b64Char w ≠ '.' := by decide
    exact hall v h
  · have hlen : b64Alphabet.length ≤ v := by
      have : b64Alphabet.length = 64 := by decide
      omega
    simp only [b64Char, List.getD_eq_default _ _ hlen]
    decide

/-- Characters emitted by the encoder are never `.` (they are alphabet
characters or `=`). -/
theorem b64Encode_not_dot (l : List Nat) : '.' ∉ b64Encode l := by
  induction l using b64Encode.induct with
  | case1 => simp [b64Encode]
  | case2 a =>
      simp only [b64Encode, List.mem_cons, List.not_mem_nil, or_false]
      push_neg
      exact ⟨(b64Char_ne_dot _).symm, (b64Char_ne_dot _).symm, by decide, by decide⟩
  | case3 a b =>
      simp only [b64Encode, List.mem_cons, List.not_mem_nil, or_false]
      push_neg
      exact ⟨(b64Char_ne_dot _).symm, (b64Char_ne_dot _).symm, (b64Char_ne_dot _).symm,
        by decide⟩
  | case4 a b c rest ih =>
      simp only [b64Encode, List.mem_cons]
      push_neg
      exact ⟨(b64Char_ne_dot _).symm, (b64Char_ne_dot _).symm, (b64Char_ne_dot _).symm,
        (b64Char_ne_dot _).symm, ih⟩

theorem b64DecodeBits_chunk3 (a b c : Nat) (vs : List Nat)
    (ha : a < 256) (hb : b < 256) (hc : c < 256) :
    b64DecodeBits (a / 4 :: (a % 4 * 16 + b / 16) :: (b % 16 * 4 + c / 64) :: c % 64 :: vs) 0 0
      = a :: b :: c :: b64DecodeBits vs 0 0 := by
  simp only [b64DecodeBits]
  norm_num [Nat.mod_one]
  omega

theorem b64DecodeBits_chunk1 (a : Nat) (ha : a < 256) :
    b64DecodeBits [a / 4, a % 4 * 16] 0 0 = [a] := by
  simp only [b64DecodeBits]
  norm_num
  omega

theorem b64DecodeBits_chunk2 (a b : Nat) (ha : a < 256) (hb : b < 256) :
    b64DecodeBits [a / 4, a % 4 * 16 + b / 16, b % 16 * 4] 0 0 = [a, b] := by
  simp only [b64DecodeBits]
  norm_num
  omega

/-- Base64 round trip on byte lists: Node's decoder inverts the encoder. -/
theorem b64Decode_b64Encode (l : List Nat) (h : ∀ b ∈ l, b < 256) :
    b64Decode (b64Encode l) = l := by
  induction l using b64Encode.induct with
  | case1 => rfl
  | case2 a =>
      have ha : a < 256 := h a (by simp)
      unfold b64Decode b64Encode
      rw [List.filterMap_cons, List.filterMap_cons, List.filterMap_cons, List.filterMap_cons]
      rw [b64Val_b64Char (by omega), b64Val_b64Char (by omega), b64Val_eq]
      simpa using b64DecodeBits_chunk1 a ha
  | case3 a b =>
      have ha : a < 256 := h a (by simp)
      have hb : b < 256 := h b (by simp)
      unfold b64Decode b64Encode
      rw [List.filterMap_cons, List.filterMap_cons, List.filterMap_cons, List.filterMap_cons]
      rw [b64Val_b64Char (by omega), b64Val_b64Char (by omega), b64Val_b64Char (by omega),
        b64Val_eq]
      simpa using b64DecodeBits_chunk2 a b ha hb
  | case4 a b c rest ih =>
      have ha : a < 256 := h a (by simp)
      have hb : b < 256 := h b (by simp)
      have hc : c < 256 := h c (by simp)
      have hrest : ∀ x ∈ rest, x < 256 := fun x hx => h x (by simp [hx])
      unfold b64Decode b64Encode
      rw [List.filterMap_cons, List.filterMap_cons, List.filterMap_cons, List.filterMap_cons]
      rw [b64Val_b64Char (by omega), b64Val_b64Char (by omega), b64Val_b64Char (by omega),
        b64Val_b64Char (by omega)]
      simp only [Option.some.injEq]
      have := b64DecodeBits_chunk3 a b c (List.filterMap b64Val (b64Encode rest)) ha hb hc
      simp only at this ⊢
      rw [this]
      have ihr := ih hrest
      unfold b64Decode at ihr
      rw [ihr]

/-! ## Secret Vault (`src/crypto.ts`)

`getKey` reads `process.env.ENCRYPTION_KEY` on every call, base64-decodes it
and insists on exactly 32 bytes.  `encryptSecret` draws a random 12-byte IV
(modelled as a parameter), AES-256-GCM-encrypts, and emits
`ivB64 . tagB64 . ctB64`.  `decryptSecret` splits on `.`, rejects a missing or
empty component, re-reads the key, decodes the three components and fails if
the authentication tag does not verify. -/

/-- The slice of `process.env` the Vault and the server startup read. -/
structure ProcEnv where
  encryptionKey : Option (List Char)
  nodeEnv : Option String
  port : Option String
  whoopClientId : Option String
  whoopScopes : Option String
deriving DecidableEq, Repr

/-- `getKey` from `src/crypto.ts`: absent variable and non-32-byte decodes are
errors.  It is invoked by `encryptSecret`/`decryptSecret` on each call. -/
def getKey (env : ProcEnv) : Except String (List Nat) :=
  match env.encryptionKey with
  | none => .error "ENCRYPTION_KEY is not set"
  | some b64 =>
      let key := b64Decode b64
      if key.length = 32 then .ok key else .error "ENCRYPTION_KEY must be a 32-byte base64 string"

/-- Idealized AES-CTR-style keystream byte (the concrete mixing function is
irrelevant: only XOR-involutivity is used, as with a real stream cipher). -/
def ksByte (key iv : List Nat) (i : Nat) : Nat :=
  (key.foldl (fun a b => a * 31 + b) 7 + iv.foldl (fun a b => a * 131 + b) 11 + i * 197) % 256

/-- XOR a byte list against the keystream starting at counter `i`. -/
def xorStream (key iv : List Nat) (i : Nat) : List Nat → List Nat
  | [] => []
  | b :: bs => (b ^^^ ksByte key iv i) :: xorStream key iv (i + 1) bs

theorem xorStream_involutive (key iv : List Nat) (i : Nat) (l : List Nat) :
    xorStream key iv i (xorStream key iv i l) = l := by
  induction l generalizing i with
  | nil => rfl
  | cons b bs ih => simp [xorStream, Nat.xor_assoc, ih]

theorem xorStream_lt (key iv : List Nat) (i : Nat) (l : List Nat)
    (h : ∀ b ∈ l, b < 256) : ∀ b ∈ xorStream key iv i l, b < 256 := by
  induction l generalizing i with
  | nil => simp [xorStream]
  | cons b bs ih =>
      intro x hx
      simp only [xorStream, List.mem_cons] at hx
      rcases hx with hx | hx
      · subst hx
        have hb : b < 256 := h b (by simp)
        have hk : ksByte key iv i < 256 := Nat.mod_lt _ (by norm_num)
        calc b ^^^ ksByte key iv i < 2 ^ 8 :=
              Nat.xor_lt_two_pow (by simpa using hb) (by simpa using hk)
          _ = 256 := by norm_num
      · exact ih (i + 1) (fun y hy => h y (by simp [hy])) x hx

/-- Idealized GCM authentication tag: authenticates exactly the pair
(IV, ciphertext).  Real AES-GCM provides this binding computationally; the
model makes it exact so that integrity claims become provable. -/
def gcmTag (iv ct : List Nat) : List Nat := iv ++ ct

/-- Assemble `ivB64.tagB64.ctB64` as in `encryptSecret`'s template string. -/
def mkPayload (iv tag ct : List Nat) : List Char :=
  b64Encode iv ++ '.' :: b64Encode tag ++ '.' :: b64Encode ct

/-- `encryptSecret` from `src/crypto.ts`.  The random 12-byte IV is a
parameter; plaintext is its UTF-8 byte list. -/
def encryptSecret (env : ProcEnv) (iv : List Nat) (plainText : List Nat) :
    Except String (List Char) :=
  match getKey env with
  | .error e => .error e
  | .ok key =>
      let ciphertext := xorStream key iv 0 plainText
      let tag := gcmTag iv ciphertext
      .ok (mkPayload iv tag ciphertext)

/-- `payload.split('.')` (JavaScript `String.split` with a string separator:
keeps empty pieces, including a trailing one). -/
def splitOnDot : List Char → List (List Char)
  | [] => [[]]
  | c :: rest =>
      if c = '.' then [] :: splitOnDot rest
      else
        match splitOnDot rest with
        | [] => [[c]]
        | g :: gs => (c :: g) :: gs

/-- `decryptSecret` from `src/crypto.ts`: destructure the first three dot
components (`undefined`/empty are rejected as malformed), then `getKey`, then
decode and authenticate. -/
def decryptSecret (env : ProcEnv) (payload : List Char) : Except String (List Nat) :=
  match splitOnDot payload with
  | ivB64 :: tagB64 :: ctB64 :: _ =>
      if ivB64 = [] ∨ tagB64 = [] ∨ ctB64 = [] then .error "Invalid encrypted payload format"
      else
        match getKey env with
        | .error e => .error e
        | .ok key =>
            let iv := b64Decode ivB64
            let tag := b64Decode tagB64
            let ciphertext := b64Decode ctB64
            if tag = gcmTag iv ciphertext then .ok (xorStream key iv 0 ciphertext)
            else .error "Unsupported state or unable to authenticate data"
  | _ => .error "Invalid encrypted payload format"

theorem splitOnDot_append (a r : List Char) (ha : '.' ∉ a) :
    splitOnDot (a ++ '.' :: r) = a :: splitOnDot r := by
  induction a with
  | nil => simp [splitOnDot]
  | cons c cs ih =>
      have hc : c ≠ '.' := fun h => ha (by simp [h])
      have hcs : '.' ∉ cs := fun h => ha (by simp [h])
      simp only [List.cons_append, splitOnDot, if_neg hc, List.append_eq, ih hcs]

theorem splitOnDot_no_dot (a : List Char) (ha : '.' ∉ a) : splitOnDot a = [a] := by
  induction a with
  | nil => rfl
  | cons c cs ih =>
      have hc : c ≠ '.' := fun h => ha (by simp [h])
      have hcs : '.' ∉ cs := fun h => ha (by simp [h])
      simp only [splitOnDot, if_neg hc, ih hcs]

theorem splitOnDot_mkPayload (iv tag ct : List Nat) :
    splitOnDot (mkPayload iv tag ct) = [b64Encode iv, b64Encode tag, b64Encode ct] := by
  unfold mkPayload
  simp only [List.cons_append, List.append_assoc]
  rw [splitOnDot_append _ _ (b64Encode_not_dot iv),
    splitOnDot_append _ _ (b64Encode_not_dot tag),
    splitOnDot_no_dot _ (b64Encode_not_dot ct)]

theorem b64Encode_ne_nil (l : List Nat) (h : l ≠ []) : b64Encode l ≠ [] := by
  match l with
  | [] => exact absurd rfl h
  | [a] => simp [b64Encode]
  | [a, b] => simp [b64Encode]
  | a :: b :: c :: rest => simp [b64Encode]

/-- Evaluating `decryptSecret` on a well-formed three-component payload. -/
theorem decryptSecret_mkPayload (env : ProcEnv) (key iv tag ct : List Nat)
    (hkey : getKey env = .ok key)
    (hiv : iv ≠ []) (htag : tag ≠ []) (hct : ct ≠ []) :
    decryptSecret env (mkPayload iv tag ct) =
      if b64Decode (b64Encode tag) = gcmTag (b64Decode (b64Encode iv)) (b64Decode (b64Encode ct))
      then .ok (xorStream key (b64Decode (b64Encode iv)) 0 (b64Decode (b64Encode ct)))
      else .error "Unsupported state or unable to authenticate data" := by
  unfold decryptSecret
  rw [splitOnDot_mkPayload]
  simp only [b64Encode_ne_nil iv hiv, b64Encode_ne_nil tag htag, b64Encode_ne_nil ct hct,
    or_self, or_false, if_false, hkey]

/-! ## Server startup (module load of the server entry point)

At process start the module computes `envFile` from `NODE_ENV`, `PORT`,
cookie settings and the `config` object (with the flexible WHOOP scope
normalization).  No statement executed at startup reads
`ENCRYPTION_KEY`: `getKey` runs inside `encryptSecret`/`decryptSecret` only.
Nothing in the startup path can throw, so startup is modelled as a total
function to the computed configuration. -/

/-- One char of `.replace(/,/g, ' ')`. -/
def commaToSpace (c : Char) : Char := if c = ',' then ' ' else c

/-- `\s` of the `\s+` regex (the whitespace characters relevant here). -/
def isWsChar (c : Char) : Bool := c = ' ' ∨ c = '\t' ∨ c = '\n' ∨ c = '\r'

/-- Helper for `collapseWs`: `prevWs` records whether the previous character
was whitespace (i.e. we are inside a run already replaced by one space). -/
def collapseWsAux (prevWs : Bool) : List Char → List Char
  | [] => []
  | c :: rest =>
      if isWsChar c then
        if prevWs then collapseWsAux true rest
        else ' ' :: collapseWsAux true rest
      else c :: collapseWsAux false rest

/-- `.replace(/\s+/g, ' ')`: collapse whitespace runs to single spaces. -/
def collapseWs (s : List Char) : List Char := collapseWsAux false s

/-- `.trim()`. -/
def trimWs (s : List Char) : List Char :=
  ((s.dropWhile isWsChar).reverse.dropWhile isWsChar).reverse

/-- The server's flexible scope parsing: commas to spaces, collapse
whitespace, trim. -/
def normalizeScopes (s : String) : String :=
  ⟨trimWs (collapseWs (s.data.map commaToSpace))⟩

/-- Default `WHOOP_SCOPES`. -/
def defaultScopes : String :=
  "read:cycles read:recovery read:sleep read:workout read:profile read:body_measurement offline"

/-- Configuration computed when the server module loads. -/
structure AppConfig where
  envFile : String
  port : String
  clientId : Option String
  scopes : String
deriving DecidableEq, Repr

/-- `process.env.PORT || 3000` (an empty string is falsy). -/
def portOf (env : ProcEnv) : String :=
  match env.port with
  | some p => if p = "" then "3000" else p
  | none => "3000"

/-- The statements the server module executes at load: `envFile` selection,
`PORT`, and the `config` object with scope normalization.  Note that this
function never consults `env.encryptionKey`. -/
def serverStartup (env : ProcEnv) : AppConfig :=
  { envFile :=
      if env.nodeEnv = some "production" then ".env.prod"
      else if env.nodeEnv = some "development" then ".env.dev"
      else ".env"
    port := portOf env
    clientId := env.whoopClientId
    scopes :=
      match env.whoopScopes with
      | some s => if s = "" then normalizeScopes defaultScopes else normalizeScopes s
      | none => normalizeScopes defaultScopes }

/-! ## JavaScript value model

`JVal` models the JSON-like payloads the provider returns.  `Option JVal`
models a possibly-`undefined` expression (`none` = `undefined`).  The
`Number(...)` coercion is modelled by `jsNumber`, with `none` standing for
`NaN`; numeric-string parsing is not modelled (strings coerce to `NaN` here),
and provider payload dates are modelled as millisecond numbers (for which
`new Date(x).getTime()` is the identity). -/

inductive JVal where
  | num (q : ℚ)
  | str (s : String)
  | bool (b : Bool)
  | null
  | obj (fields : List (String × JVal))
  | arr (elems : List JVal)

/-- JavaScript truthiness. -/
def jsTruthy : JVal → Bool
  | .num q => q ≠ 0
  | .str s => s ≠ ""
  | .bool b => b
  | .null => false
  | .obj _ => true
  | .arr _ => true

/-- Truthiness of a possibly-`undefined` value. -/
def jsTruthyO : Option JVal → Bool
  | none => false
  | some v => jsTruthy v

/-- Property access `o.k` on a value known to be defined; `undefined` when
absent or when `o` is not an object. -/
def getF : JVal → String → Option JVal
  | .obj fields, k => (fields.find? (fun p => p.1 = k)).map Prod.snd
  | _, _ => none

/-- Optional chaining `o?.k`. -/
def getFO (o : Option JVal) (k : String) : Option JVal :=
  match o with
  | none => none
  | some v => getF v k

/-- `a || b` on possibly-undefined values. -/
def jsOr (a b : Option JVal) : Option JVal := if jsTruthyO a then a else b

/-- Nullish test of `??` (`undefined` or `null`). -/
def jsNullish : Option JVal → Bool
  | none => true
  | some .null => true
  | some _ => false

/-- `a ?? b`. -/
def jsCoalesce (a b : Option JVal) : Option JVal := if jsNullish a then b else a

/-- `Number(x)` composed with the `Number.isFinite` guard used throughout the
aggregator: `some q` when the coercion yields a finite number, `none` for
`NaN` (`undefined`, non-numeric strings, objects).  `Number(null) = 0` and
booleans coerce to 0/1. -/
def jsNumber : Option JVal → Option ℚ
  | some (.num q) => some q
  | some .null => some 0
  | some (.bool b) => some (if b then 1 else 0)
  | _ => none

/-! ## Recovery-Score Extractor (`extractRecoveryScore`)

The source walks the payload object graph (`visit(o, depth)`, starting at
`maxDepth = 4`; a child is visited at `depth - 1` and a visit at negative
depth returns immediately), collecting every numeric field whose lowercased
key contains `"recovery"` or whose lowercased key is `"score"`, normalizing
`v <= 1` by `* 100` and keeping values in `[0, 100]`; the result is the
maximum candidate, or `null` when no candidate was found.  The walker is
parameterized by the per-number candidate function so that the code's
normalization and the specification's normalization instantiate the same
traversal. -/

/-- `k.toLowerCase()`. -/
def lowerStr (s : String) : String := ⟨s.data.map Char.toLower⟩

def charsStartWith : List Char → List Char → Bool
  | [], _ => true
  | _ :: _, [] => false
  | a :: as, b :: bs => a = b && charsStartWith as bs

/-- `hay.includes(needle)` on char lists. -/
def charsContain : List Char → List Char → Bool
  | n, [] => charsStartWith n []
  | n, c :: t => charsStartWith n (c :: t) || charsContain n t

/-- `key.includes('recovery')` after lowercasing. -/
def keyHasRecovery (k : String) : Bool := charsContain "recovery".data (lowerStr k).data

/-- `key === 'score'` after lowercasing. -/
def keyIsScore (k : String) : Bool := lowerStr k = "score"

/-- The source's normalization of one numeric candidate: `v <= 1` is scaled
by 100, then the value is kept iff it lies in `[0, 100]`. -/
def codeNorm (q : ℚ) : List ℚ :=
  let val := if q ≤ 1 then q * 100 else q
  if 0 ≤ val ∧ val ≤ 100 then [val] else []

/-- Candidates pushed for a numeric entry `(k, q)`: one `if` for
recovery-containing keys, one for the key `score` (both lowercased). -/
def numCandidates (k : String) (q : ℚ) : List ℚ :=
  (if keyHasRecovery k then codeNorm q else []) ++ (if keyIsScore k then codeNorm q else [])

/-- The `visit` walker, structurally recursive on the remaining depth.
Numeric entries contribute candidates via `f` (for arrays, `Object.entries`
produces the stringified indices as keys); object/array children are visited
at `d - 1`, and the children of a depth-0 visit are skipped, matching the
source's `depth < 0` guard. -/
def visitDepth (f : String → ℚ → List ℚ) : Nat → JVal → List ℚ
  | 0, .obj fs => fs.flatMap fun kv =>
      match kv.2 with
      | .num q => f kv.1 q
      | _ => []
  | 0, .arr xs => xs.enum.flatMap fun iv =>
      match iv.2 with
      | .num q => f (toString iv.1) q
      | _ => []
  | 0, _ => []
  | d + 1, .obj fs => fs.flatMap fun kv =>
      match kv.2 with
      | .num q => f kv.1 q
      | .obj _ => visitDepth f d kv.2
      | .arr _ => visitDepth f d kv.2
      | _ => []
  | d + 1, .arr xs => xs.enum.flatMap fun iv =>
      match iv.2 with
      | .num q => f (toString iv.1) q
      | .obj _ => visitDepth f d iv.2
      | .arr _ => visitDepth f d iv.2
      | _ => []
  | _ + 1, _ => []

/-- `Math.max(...candidates)` with the empty-candidate check: `null` when no
candidate was collected. -/
def maxCandidate : List ℚ → Option ℚ
  | [] => none
  | x :: xs => some (xs.foldl max x)

/-- `extractRecoveryScore(obj)` with its default `maxDepth = 4`: `null` for
non-objects, otherwise the maximum collected candidate. -/
def extractRecoveryScore (j : JVal) : Option ℚ :=
  match j with
  | .obj _ => maxCandidate (visitDepth numCandidates 4 j)
  | .arr _ => maxCandidate (visitDepth numCandidates 4 j)
  | _ => none

/-- `extractRecoveryScore(x)` where `x` may be `undefined` (e.g.
`extractRecoveryScore(r)` with `r` undefined). -/
def extractRecoveryScoreO (o : Option JVal) : Option ℚ :=
  match o with
  | none => none
  | some v => extractRecoveryScore v

/-- The specification's normalization: a candidate lying in `[0, 1]` is
scaled by 100; values outside `[0, 100]` after normalization are discarded. -/
def specNorm (q : ℚ) : List ℚ :=
  let val := if 0 ≤ q ∧ q ≤ 1 then q * 100 else q
  if 0 ≤ val ∧ val ≤ 100 then [val] else []

/-- The specification's candidate rule for a numeric field: key contains
`"recovery"` (case-insensitively) or the key is `"score"` (the source
compares the lowercased key, so the equality is case-insensitive too). -/
def specNumCandidates (k : String) (q : ℚ) : List ℚ :=
  if keyHasRecovery k || keyIsScore k then specNorm q else []

/-- Modelled from the spec: the extractor described in §4.4 — the same
bounded walk, the spec's normalization rule, maximum-or-none. -/
def specExtractRecoveryScore (j : JVal) : Option ℚ :=
  match j with
  | .obj _ => maxCandidate (visitDepth specNumCandidates 4 j)
  | .arr _ => maxCandidate (visitDepth specNumCandidates 4 j)
  | _ => none

theorem codeNorm_eq_specNorm (q : ℚ) : codeNorm q = specNorm q := by
  simp only [codeNorm, specNorm]
  by_cases h0 : 0 ≤ q
  · by_cases h1 : q ≤ 1
    · rw [if_pos h1, if_pos (show 0 ≤ q ∧ q ≤ 1 from ⟨h0, h1⟩)]
    · rw [if_neg h1, if_neg (show ¬(0 ≤ q ∧ q ≤ 1) from fun h => h1 h.2)]
  · have hlt : q < 0 := not_le.1 h0
    rw [if_pos (show q ≤ 1 by linarith), if_neg (show ¬(0 ≤ q ∧ q ≤ 1) from fun h => h0 h.1)]
    rw [if_neg (show ¬(0 ≤ q * 100 ∧ q * 100 ≤ 100) from fun h => absurd h.1 (by linarith)),
      if_neg (show ¬(0 ≤ q ∧ q ≤ 100) from fun h => h0 h.1)]

theorem keyIsScore_not_recovery (k : String) (h : keyIsScore k = true) :
    keyHasRecovery k = false := by
  unfold keyIsScore at h
  unfold keyHasRecovery
  rw [show lowerStr k = "score" by exact_mod_cast of_decide_eq_true (by exact_mod_cast h)]
  decide

theorem numCandidates_eq_spec : numCandidates = specNumCandidates := by
  funext k q
  unfold numCandidates specNumCandidates
  by_cases hs : keyIsScore k
  · rw [keyIsScore_not_recovery k hs]
    simp [hs, codeNorm_eq_specNorm]
  · by_cases hr : keyHasRecovery k <;> simp [hs, hr, codeNorm_eq_specNorm]

/-- The code extractor coincides with the spec-described extractor. -/
theorem extractRecoveryScore_eq_spec (j : JVal) :
    extractRecoveryScore j = specExtractRecoveryScore j := by
  unfold extractRecoveryScore specExtractRecoveryScore
  rw [numCandidates_eq_spec]

/-! ## Member/Metrics Store (schema `001_init.sql` + `db.ts` migrations)

`members(id, whoop_user_id UNIQUE, display_name, avatar_url,
refresh_token_enc, created_at, last_refreshed_at)` and
`daily_metrics(member_id, date, sleep_total_sec, recovery_score,
strain_score, updated_at, sleep_perf_pct, sleep_consistency_pct)` with
`UNIQUE(member_id, date)` and `ON DELETE CASCADE` (enforced: `db.ts` sets
`PRAGMA foreign_keys = ON`).  `updated_at` is stored as a timestamp in ms
(the source stores an SQLite datetime string and compares via
`new Date(s).getTime()`). -/

structure MemberRow where
  id : Nat
  whoopUserId : String
  displayName : String
  avatarUrl : Option String
  refreshTokenEnc : List Char
  lastRefreshedAt : Option ℤ
deriving DecidableEq, Repr

structure MetricRow where
  memberId : Nat
  date : String
  sleepTotalSec : Option ℚ
  sleepPerfPct : Option ℚ
  sleepConsistencyPct : Option ℚ
  recoveryScore : Option ℚ
  strainScore : Option ℚ
  updatedAt : ℤ
deriving DecidableEq, Repr

structure DB where
  members : List MemberRow
  metrics : List MetricRow
deriving DecidableEq, Repr

/-- `SELECT ... FROM daily_metrics WHERE member_id = ? AND date = ?`. -/
def findMetric (db : DB) (mid : Nat) (date : String) : Option MetricRow :=
  db.metrics.find? fun r => r.memberId == mid && r.date == date

/-- `DELETE FROM members WHERE whoop_user_id = ?`; the schema's
`ON DELETE CASCADE` also removes the member's `daily_metrics` rows. -/
def deleteMemberByWhoopUserId (db : DB) (whoopUserId : String) : DB :=
  let removedIds := (db.members.filter fun m => m.whoopUserId == whoopUserId).map (·.id)
  { members := db.members.filter fun m => m.whoopUserId != whoopUserId
    metrics := db.metrics.filter fun r => !(removedIds.contains r.memberId) }

/-- `UPDATE members SET refresh_token_enc = ?, last_refreshed_at = datetime('now')
WHERE id = ?`. -/
def updateMemberToken (db : DB) (mid : Nat) (enc : List Char) (now : ℤ) : DB :=
  { db with members := db.members.map fun m =>
      if m.id == mid then { m with refreshTokenEnc := enc, lastRefreshedAt := some now } else m }

/-- `UPDATE members SET last_refreshed_at = datetime('now') WHERE id = ?`. -/
def touchMemberRefreshed (db : DB) (mid : Nat) (now : ℤ) : DB :=
  { db with members := db.members.map fun m =>
      if m.id == mid then { m with lastRefreshedAt := some now } else m }

/-- The metric fields carried through one member's aggregation. -/
structure MemberVals where
  sleepTotalSec : Option ℚ
  sleepPerfPct : Option ℚ
  sleepConsistencyPct : Option ℚ
  recoveryScore : Option ℚ
  strainScore : Option ℚ
deriving DecidableEq, Repr

/-- `COALESCE(?, col)`: a non-null incoming value overwrites, a null one
keeps the stored value. -/
def coalesceQ (incoming stored : Option ℚ) : Option ℚ :=
  match incoming with
  | some x => some x
  | none => stored

/-- The aggregator's upsert: `UPDATE daily_metrics SET c = COALESCE(?, c), ...,
updated_at = datetime('now') WHERE id = ?` when the `(member, date)` row
exists, else a plain `INSERT`.  The SQL update addresses the row by its `id`;
under the schema's `UNIQUE(member_id, date)` that is the unique
`(member, date)` match, which is how the model addresses it. -/
def upsertDailyMetrics (db : DB) (now : ℤ) (mid : Nat) (date : String) (v : MemberVals) : DB :=
  if (findMetric db mid date).isSome then
    { db with metrics := db.metrics.map fun r =>
        if r.memberId == mid && r.date == date then
          { r with
            sleepTotalSec := coalesceQ v.sleepTotalSec r.sleepTotalSec
            sleepPerfPct := coalesceQ v.sleepPerfPct r.sleepPerfPct
            sleepConsistencyPct := coalesceQ v.sleepConsistencyPct r.sleepConsistencyPct
            recoveryScore := coalesceQ v.recoveryScore r.recoveryScore
            strainScore := coalesceQ v.strainScore r.strainScore
            updatedAt := now }
        else r }
  else
    { db with metrics := db.metrics ++
        [{ memberId := mid, date := date
           sleepTotalSec := v.sleepTotalSec
           sleepPerfPct := v.sleepPerfPct
           sleepConsistencyPct := v.sleepConsistencyPct
           recoveryScore := v.recoveryScore
           strainScore := v.strainScore
           updatedAt := now }] }

/-! ## Provider Client and event traces

`refreshAccessToken` posts to the token endpoint; `makeWhoopApiRequest`
performs one authenticated GET.  Both are modelled by an oracle; the
endpoints the aggregator hits are tagged by metric class (`cycleRecovery`
stands for `/v2/cycle/{id}/recovery`; the interpolated id does not affect
any claim).  An `AxiosFailure` carries the optional HTTP response status and
body, exactly what `isInvalidGrant` inspects. -/

inductive Endpoint where
  | sleepList
  | recoveryList
  | cycleList
  | cycleRecovery
deriving DecidableEq, Repr

structure AxiosFailure where
  status : Option Nat
  data : Option JVal

structure TokenResponse where
  accessToken : String
  refreshTokenNew : Option (List Nat)
  expiresIn : Option ℚ
deriving DecidableEq, Repr

structure Provider where
  refreshAccessToken : List Nat → Except AxiosFailure TokenResponse
  fetch : Endpoint → String → Except AxiosFailure JVal

inductive Event where
  | tokenRefresh (refreshToken : List Nat)
  | persistRotatedToken (memberId : Nat) (enc : List Char)
  | touchOnly (memberId : Nat)
  | fetch (ep : Endpoint) (accessToken : String)
  | memberDeleted (whoopUserId : String)
deriving DecidableEq, Repr

/-- `typeof data === 'object'` (`null` and arrays included). -/
def typeofObject : JVal → Bool
  | .null => true
  | .obj _ => true
  | .arr _ => true
  | _ => false

/-- `x === 's'` for a possibly-undefined value against a string literal. -/
def jsStrEq (o : Option JVal) (s : String) : Bool :=
  match o with
  | some (.str t) => t == s
  | _ => false

/-- The catch-block classifier: `status === 400 || status === 401 ||
(typeof data === 'object' && (data?.error === 'invalid_grant' ||
data?.error === 'invalid_request'))`. -/
def isInvalidGrant (status : Option Nat) (data : Option JVal) : Bool :=
  status == some 400 || status == some 401 ||
    (match data with
     | some d =>
         typeofObject d &&
           (jsStrEq (getF d "error") "invalid_grant" || jsStrEq (getF d "error") "invalid_request")
     | none => false)

/-! ## Tiered Aggregator (`GET /api/leaderboard`) -/

def staleStrainMs : ℤ := 5 * 60 * 1000
def staleHourlyMs : ℤ := 60 * 60 * 1000

/-- `updated = cached?.updated_at ? getTime : 0; ageMs = updated ?
Date.now() - updated : Infinity` (`none` is `Infinity`). -/
def ageMsOf (now : ℤ) (cached : Option MetricRow) : Option ℤ :=
  let updated : ℤ := match cached with | some c => c.updatedAt | none => 0
  if updated = 0 then none else some (now - updated)

/-- `ageMs > w` with `ageMs` possibly `Infinity`. -/
def ageGt (age : Option ℤ) (w : ℤ) : Bool :=
  match age with
  | none => true
  | some a => a > w

def needStrainFetchOf (force : String) (age : Option ℤ) : Bool :=
  if force == "all" || force == "strain" then true else ageGt age staleStrainMs

def needHourlyFetchOf (force : String) (age : Option ℤ) : Bool :=
  if force == "all" || force == "sleep" || force == "recovery" then true
  else ageGt age staleHourlyMs

/-- `new Date(x).getTime()` for a payload value: dates arriving as epoch-ms
numbers pass through; other shapes (including date strings, whose parsing is
not modelled) give `NaN`. -/
def jsDateMs (o : Option JVal) : Option ℚ :=
  match o with
  | some (.num q) => some q
  | _ => none

/-- `Math.round`: `⌊q + 1/2⌋` (half rounds toward +∞, as JS does), computed
as the floor division `⌊(2·num + den) / (2·den)⌋` so that it evaluates by
kernel reduction. -/
def jsRound (q : ℚ) : ℚ := (Int.fdiv (2 * q.num + (q.den : ℤ)) (2 * (q.den : ℤ)) : ℤ)

/-- `Number(x) || 0` (`NaN` and `0` both give `0`). -/
def nOr0 (o : Option ℚ) : ℚ :=
  match o with
  | some q => q
  | none => 0

/-- `typeof o?.k === 'number'`. -/
def isNumField (o : Option JVal) (k : String) : Bool :=
  match getFO o k with
  | some (.num _) => true
  | _ => false

def chain3 (a b c : Option JVal) : Option JVal := jsCoalesce a (jsCoalesce b c)

def chain4 (a b c d : Option JVal) : Option JVal := jsCoalesce a (chain3 b c d)

/-- `(resp?.records as any[]) || (Array.isArray(resp) ? resp : [])`.  A
truthy non-array `records` makes the `for..of` throw into the surrounding
`catch`, which leaves the block's values null — observably the same as
iterating zero records, which is how it is modelled. -/
def recordsOf (resp : JVal) : List JVal :=
  match getF resp "records" with
  | some (.arr xs) => xs
  | some v => if jsTruthy v then [] else (match resp with | .arr xs => xs | _ => [])
  | none => match resp with | .arr xs => xs | _ => []

/-- `(resp?.records && resp.records[0]) || (Array.isArray(resp) ? resp[0]
: resp)`. -/
def firstRecord (resp : JVal) : Option JVal :=
  let fromRecords : Option JVal :=
    match getF resp "records" with
    | some rv =>
        if jsTruthy rv then
          match rv with
          | .arr xs => xs.head?
          | .obj _ => getF rv "0"
          | _ => none
        else none
    | none => none
  if jsTruthyO fromRecords then fromRecords
  else
    match resp with
    | .arr xs => xs.head?
    | _ => some resp

/-- Accumulator of the sleep-records loop; `totalMinutes = none` models a
`NaN`-poisoned running total. -/
structure SleepAcc where
  totalMinutes : Option ℚ
  bestPerf : Option ℚ
  bestConsistency : Option ℚ
deriving DecidableEq, Repr

/-- One iteration of the `for (const r of records)` sleep loop. -/
def sleepRecordStep (acc : SleepAcc) (r : JVal) : SleepAcc :=
  let score := jsOr (getF r "score") (getFO (getF r "sleep") "score")
  let perf := jsNumber (getFO score "sleep_performance_percentage")
  let bestPerf :=
    match perf with
    | some p => some (max (match acc.bestPerf with | some bp => bp | none => p) p)
    | none => acc.bestPerf
  let consistency := jsNumber (getFO score "sleep_consistency_percentage")
  let bestConsistency :=
    match consistency with
    | some c => some (max (match acc.bestConsistency with | some bc => bc | none => c) c)
    | none => acc.bestConsistency
  let deep := nOr0 (jsNumber (getFO score "slow_wave_sleep_minutes"))
  let rem := nOr0 (jsNumber (getFO score "rem_sleep_minutes"))
  let light := nOr0 (jsNumber (getFO score "light_sleep_minutes"))
  let minutes : Option ℚ :=
    if 0 < deep + rem + light then some (deep + rem + light)
    else if isNumField score "in_bed_duration_minutes" then
      some (nOr0 (jsNumber (getFO score "in_bed_duration_minutes")) -
        nOr0 (jsNumber (getFO score "awake_time_minutes")))
    else if jsTruthyO (getF r "start") && jsTruthyO (getF r "end") then
      match jsDateMs (getF r "start"), jsDateMs (getF r "end") with
      | some s, some e => some (max 0 (jsRound ((e - s) / 60000)))
      | _, _ => none
    else some 0
  { totalMinutes :=
      match acc.totalMinutes, minutes with
      | some t, some m => some (t + max 0 m)
      | _, _ => none
    bestPerf := bestPerf
    bestConsistency := bestConsistency }

/-- The sleep block (hourly class): fetch `/v2/activity/sleep?...`, derive
total slept seconds, best performance % and best consistency %.  An error
from the fetch is swallowed (`catch (_) ignore`), leaving all three null. -/
def sleepPhase (pv : Provider) (accessToken : String) :
    (Option ℚ × Option ℚ × Option ℚ) × List Event :=
  match pv.fetch .sleepList accessToken with
  | .ok resp =>
      let acc := (recordsOf resp).foldl sleepRecordStep ⟨some 0, none, none⟩
      ((match acc.totalMinutes with
        | some t => if 0 < t then some (t * 60) else none
        | none => none,
        acc.bestPerf.map jsRound,
        acc.bestConsistency.map jsRound),
       [.fetch .sleepList accessToken])
  | .error _ => ((none, none, none), [.fetch .sleepList accessToken])

/-- `extracted <= 1 ? extracted * 100 : extracted`. -/
def scaleRec (e : ℚ) : ℚ := if e ≤ 1 then e * 100 else e

/-- Primary recovery lookup: `/v2/recovery?...&limit=1`, the
`score ?? recovery_score ?? recovery?.score` chain, then the extractor. -/
def recoveryPrimary (pv : Provider) (accessToken : String) : Option ℚ :=
  match pv.fetch .recoveryList accessToken with
  | .ok resp =>
      let r := firstRecord resp
      let scoreA := jsNumber (chain3 (getFO r "score") (getFO r "recovery_score")
        (getFO (getFO r "recovery") "score"))
      let extracted := match scoreA with | some q => some q | none => extractRecoveryScoreO r
      extracted.map scaleRec
  | .error _ => none

/-- The `if (recoveryScore == null)` fallback: `/v2/cycle?...`, the
cycle-level recovery chain, then (when an id is present)
`/v2/cycle/{id}/recovery`. -/
def recoveryCycleFallback (pv : Provider) (accessToken : String) : Option ℚ × List Event :=
  match pv.fetch .cycleList accessToken with
  | .error _ => (none, [.fetch .cycleList accessToken])
  | .ok resp =>
      let c := firstRecord resp
      if jsTruthyO c then
        let recFromCycle := jsNumber (chain3 (getFO (getFO c "score") "recovery_score")
          (getFO c "recovery_score") (getFO (getFO c "recovery") "score"))
        match recFromCycle with
        | some q => (some (scaleRec q), [.fetch .cycleList accessToken])
        | none =>
            let cycleId := chain3 (getFO c "id") (getFO c "cycle_id") (getFO c "cycleId")
            if jsNullish cycleId then (none, [.fetch .cycleList accessToken])
            else
              match pv.fetch .cycleRecovery accessToken with
              | .ok recObj =>
                  let score2 := jsNumber (chain3 (getF recObj "score")
                    (getF recObj "recovery_score") (getFO (getF recObj "recovery") "score"))
                  let extracted2 :=
                    match score2 with
                    | some q => some q
                    | none => extractRecoveryScore recObj
                  (extracted2.map scaleRec,
                   [.fetch .cycleList accessToken, .fetch .cycleRecovery accessToken])
              | .error _ =>
                  (none, [.fetch .cycleList accessToken, .fetch .cycleRecovery accessToken])
      else (none, [.fetch .cycleList accessToken])

/-- The whole hourly recovery block. -/
def recoveryPhase (pv : Provider) (accessToken : String) : Option ℚ × List Event :=
  match recoveryPrimary pv accessToken with
  | some v => (some v, [.fetch .recoveryList accessToken])
  | none =>
      let fb := recoveryCycleFallback pv accessToken
      (fb.1, .fetch .recoveryList accessToken :: fb.2)

/-- The strain block (5-minute class): `/v2/cycle?...`, `score.strain`
chain, plus the secondary recovery backfill (which, unlike the recovery
block, does not rescale).  Returns `(strainScore, recoveryScore)`. -/
def strainPhase (pv : Provider) (accessToken : String) (rec0 : Option ℚ) :
    (Option ℚ × Option ℚ) × List Event :=
  match pv.fetch .cycleList accessToken with
  | .error _ => ((none, rec0), [.fetch .cycleList accessToken])
  | .ok resp =>
      let c := firstRecord resp
      let strain := jsNumber (chain4 (getFO (getFO c "score") "strain") (getFO c "strain")
        (getFO c "score_strain") (getFO (getFO c "cycle") "strain"))
      if rec0.isNone && jsTruthyO c then
        let recFromCycle := jsNumber (chain3 (getFO (getFO c "score") "recovery_score")
          (getFO c "recovery_score") (getFO (getFO c "recovery") "score"))
        match recFromCycle with
        | some q => ((strain, some q), [.fetch .cycleList accessToken])
        | none =>
            let cycleId := chain3 (getFO c "id") (getFO c "cycle_id") (getFO c "cycleId")
            if jsNullish cycleId then ((strain, rec0), [.fetch .cycleList accessToken])
            else
              match pv.fetch .cycleRecovery accessToken with
              | .ok recObj =>
                  let score2 := jsNumber (chain3 (getF recObj "score")
                    (getF recObj "recovery_score") (getFO (getF recObj "recovery") "score"))
                  (match score2 with
                   | some q => ((strain, some q),
                       [.fetch .cycleList accessToken, .fetch .cycleRecovery accessToken])
                   | none => ((strain, rec0),
                       [.fetch .cycleList accessToken, .fetch .cycleRecovery accessToken]))
              | .error _ =>
                  ((strain, rec0),
                   [.fetch .cycleList accessToken, .fetch .cycleRecovery accessToken])
      else ((strain, rec0), [.fetch .cycleList accessToken])

/-- The five cached fields copied on the fresh-cache path (source lines
1608–1613): note this path does not copy `sleep_consistency_pct`. -/
def cacheFreshVals (c : MetricRow) : MemberVals :=
  { sleepTotalSec := c.sleepTotalSec
    sleepPerfPct := c.sleepPerfPct
    sleepConsistencyPct := none
    recoveryScore := c.recoveryScore
    strainScore := c.strainScore }

/-- The cached fields copied by the catch-block fallback (source lines
1784–1790), which does include `sleep_consistency_pct`. -/
def cacheFallbackVals (c : MetricRow) : MemberVals :=
  { sleepTotalSec := c.sleepTotalSec
    sleepPerfPct := c.sleepPerfPct
    sleepConsistencyPct := c.sleepConsistencyPct
    recoveryScore := c.recoveryScore
    strainScore := c.strainScore }

def nullVals : MemberVals := ⟨none, none, none, none, none⟩

/-- The result of one member's processing inside the pass. -/
structure MemberOutcome where
  db : DB
  vals : MemberVals
  trace : List Event
deriving DecidableEq, Repr

/-- The catch block of the per-member `try` (source lines 1766–1791): classify
via `isInvalidGrant` (a non-HTTP exception has no `response`, hence
`none`/`none`), delete the member when it holds, then fall back to cached
values when a cached row exists.  The upsert is skipped (it lives inside the
`try`). -/
def catchHandler (db : DB) (m : MemberRow) (cached : Option MetricRow)
    (status : Option Nat) (data : Option JVal) (evs : List Event) : MemberOutcome :=
  let del := isInvalidGrant status data
  let db' := if del then deleteMemberByWhoopUserId db m.whoopUserId else db
  let evs' := evs ++ (if del then [Event.memberDeleted m.whoopUserId] else [])
  let vals := match cached with
    | some c => cacheFallbackVals c
    | none => nullVals
  ⟨db', vals, evs'⟩

/-- The `try` side of one member's fetch sequence (source lines 1615–1765):
decrypt the stored refresh token, refresh the access token, persist a rotated
refresh token before any resource fetch, run the three metric blocks
according to the staleness flags, then upsert.  Any throw from the token
steps lands in `catchHandler`; the metric blocks swallow their own errors. -/
def fetchPath (env : ProcEnv) (now : ℤ) (todayStr : String) (iv : List Nat)
    (pv : Provider) (db : DB) (m : MemberRow) (cached : Option MetricRow)
    (needStrainFetch needHourlyFetch : Bool) : MemberOutcome :=
  match decryptSecret env m.refreshTokenEnc with
  | .error _ => catchHandler db m cached none none []
  | .ok refreshToken =>
      match pv.refreshAccessToken refreshToken with
      | .error e => catchHandler db m cached e.status e.data [.tokenRefresh refreshToken]
      | .ok tokenData =>
          let accessToken := tokenData.accessToken
          let rotStep : Option (DB × List Event) :=
            match tokenData.refreshTokenNew with
            | some t' =>
                if t' ≠ refreshToken then
                  match encryptSecret env iv t' with
                  | .ok enc =>
                      some (updateMemberToken db m.id enc now,
                        [.tokenRefresh refreshToken, .persistRotatedToken m.id enc])
                  | .error _ => none
                else
                  some (touchMemberRefreshed db m.id now,
                    [.tokenRefresh refreshToken, .touchOnly m.id])
            | none =>
                some (touchMemberRefreshed db m.id now,
                  [.tokenRefresh refreshToken, .touchOnly m.id])
          match rotStep with
          | none => catchHandler db m cached none none [.tokenRefresh refreshToken]
          | some (db1, evs1) =>
              let sleepStep :=
                if needHourlyFetch then sleepPhase pv accessToken
                else ((match cached with
                       | some c => (c.sleepTotalSec, c.sleepPerfPct, c.sleepConsistencyPct)
                       | none => (none, none, none)), [])
              let recStep :=
                if needHourlyFetch then recoveryPhase pv accessToken
                else ((match cached with | some c => c.recoveryScore | none => none), [])
              let strainStep :=
                if needStrainFetch then strainPhase pv accessToken recStep.1
                else (((match cached with | some c => c.strainScore | none => none),
                        recStep.1), [])
              let vals : MemberVals :=
                { sleepTotalSec := sleepStep.1.1
                  sleepPerfPct := sleepStep.1.2.1
                  sleepConsistencyPct := sleepStep.1.2.2
                  recoveryScore := strainStep.1.2
                  strainScore := strainStep.1.1 }
              let db2 := upsertDailyMetrics db1 now m.id todayStr vals
              ⟨db2, vals, evs1 ++ sleepStep.2 ++ recStep.2 ++ strainStep.2⟩

/-- One member's processing in the `for (const m of members)` loop: cache
lookup, staleness flags, then either the fresh-cache path (no network, no
trace) or the fetch path. -/
def processMember (env : ProcEnv) (now : ℤ) (todayStr : String) (force : String)
    (iv : List Nat) (pv : Provider) (db : DB) (m : MemberRow) : MemberOutcome :=
  let cached := findMetric db m.id todayStr
  let age := ageMsOf now cached
  let needStrainFetch := needStrainFetchOf force age
  let needHourlyFetch := needHourlyFetchOf force age
  match cached with
  | some c =>
      if needStrainFetch then
        fetchPath env now todayStr iv pv db m (some c) needStrainFetch needHourlyFetch
      else ⟨db, cacheFreshVals c, []⟩
  | none => fetchPath env now todayStr iv pv db m none needStrainFetch needHourlyFetch

/-- One leaderboard row. -/
structure BoardEntry where
  name : String
  value : ℚ
  seconds : Option ℚ
  consistency : Option ℚ
  avatar : Option String
deriving DecidableEq, Repr

structure Leaderboard where
  sleep : List BoardEntry
  recovery : List BoardEntry
  strain : List BoardEntry
  date : String
deriving DecidableEq, Repr

/-- The three `if (typeof x === 'number') board.push(...)` statements after
the per-member try/catch. -/
def pushBoards (m : MemberRow) (v : MemberVals) (boards : Leaderboard) : Leaderboard :=
  { boards with
    sleep := boards.sleep ++
      (match v.sleepPerfPct with
       | some p => [⟨m.displayName, p, v.sleepTotalSec, v.sleepConsistencyPct, m.avatarUrl⟩]
       | none => [])
    recovery := boards.recovery ++
      (match v.recoveryScore with
       | some r => [⟨m.displayName, r, none, none, m.avatarUrl⟩]
       | none => [])
    strain := boards.strain ++
      (match v.strainScore with
       | some s => [⟨m.displayName, s, none, none, m.avatarUrl⟩]
       | none => []) }

/-- `.sort((a, b) => b.value - a.value)`: descending by value (insertion
sort; tie order is not load-bearing for any claim). -/
def insertByValueDesc (e : BoardEntry) : List BoardEntry → List BoardEntry
  | [] => [e]
  | x :: xs => if x.value < e.value then e :: x :: xs else x :: insertByValueDesc e xs

def sortByValueDesc (l : List BoardEntry) : List BoardEntry :=
  l.foldr insertByValueDesc []

/-- The whole `/api/leaderboard` pass: snapshot the member list, process each
member in order threading the store, push board entries, sort the three
boards descending.  Returns the final store, the response boards and the
concatenated event trace. -/
def leaderboardPass (env : ProcEnv) (now : ℤ) (todayStr : String) (force : String)
    (iv : List Nat) (pv : Provider) (db : DB) : DB × Leaderboard × List Event :=
  let step := fun (st : DB × Leaderboard × List Event) (m : MemberRow) =>
    let out := processMember env now todayStr force iv pv st.1 m
    (out.db, pushBoards m out.vals st.2.1, st.2.2 ++ out.trace)
  let folded := db.members.foldl step (db, ⟨[], [], [], todayStr⟩, [])
  (folded.1,
   ⟨sortByValueDesc folded.2.1.sleep, sortByValueDesc folded.2.1.recovery,
    sortByValueDesc folded.2.1.strain, todayStr⟩,
   folded.2.2)

/-! ## Background Session Refresher

`activeSessions : Map<string, ActiveSessionData>`; the interval handle is
modelled by map membership (a registered timer is exactly a map entry).  The
15-minute callback closes over the `refreshToken` variable, so the token it
uses is the captured one, a parameter here. -/

structure ActiveSessionData where
  accessToken : Option String
  refreshToken : List Nat
  tokenExpiry : Option ℚ
deriving DecidableEq, Repr

abbrev SessionMap := List (String × ActiveSessionData)

def sessionsHas (s : SessionMap) (sid : String) : Bool := s.any (·.1 == sid)

/-- `stopTokenRefreshForSession`: clear the interval and delete the entry;
a no-op when the session is absent. -/
def stopTokenRefreshForSession (sid : String) (s : SessionMap) : SessionMap :=
  s.filter (·.1 != sid)

/-- `startTokenRefreshForSession`: clear any existing interval and register
the handle with `accessToken: null, tokenExpiry: null`. -/
def startTokenRefreshForSession (sid : String) (refreshToken : List Nat)
    (s : SessionMap) : SessionMap :=
  s.filter (·.1 != sid) ++ [(sid, ⟨none, refreshToken, none⟩)]

/-- `(newTokens.expires_in || 1800) * 1000`. -/
def expiryMsOf (expiresIn : Option ℚ) : ℚ :=
  (match expiresIn with
   | some e => if e = 0 then 1800 else e
   | none => 1800) * 1000

/-- One firing of the 15-minute interval callback for session `sid` with the
captured `refreshToken`: on success the handle's tokens are updated; on
failure the catch calls `stopTokenRefreshForSession`, tearing the handle
down. -/
def backgroundRefreshTick (pv : Provider) (now : ℚ) (sid : String)
    (capturedRefresh : List Nat) (s : SessionMap) : SessionMap :=
  match pv.refreshAccessToken capturedRefresh with
  | .ok tok =>
      s.filter (·.1 != sid) ++
        [(sid,
          { accessToken := some tok.accessToken
            refreshToken := match tok.refreshTokenNew with
              | some t => t
              | none => capturedRefresh
            tokenExpiry := some (now + expiryMsOf tok.expiresIn) })]
  | .error _ => stopTokenRefreshForSession sid s

/-- `/auth/status`'s `backgroundRefresh: req.sessionID &&
activeSessions.has(req.sessionID)`. -/
def authStatusBackgroundRefresh (s : SessionMap) (sid : String) : Bool :=
  sessionsHas s sid

/-! ## General lemmas about the embedded operations -/

instance {ε α : Type} [DecidableEq ε] [DecidableEq α] : DecidableEq (Except ε α) := fun a b =>
  match a, b with
  | .ok x, .ok y => if h : x = y then .isTrue (by rw [h]) else .isFalse (by simp [h])
  | .error x, .error y => if h : x = y then .isTrue (by rw [h]) else .isFalse (by simp [h])
  | .ok _, .error _ => .isFalse (by simp)
  | .error _, .ok _ => .isFalse (by simp)

/-- With a valid key, `encryptSecret` always succeeds, with this payload. -/
theorem encryptSecret_ok (env : ProcEnv) (key iv pt : List Nat) (h : getKey env = .ok key) :
    encryptSecret env iv pt =
      .ok (mkPayload iv (gcmTag iv (xorStream key iv 0 pt)) (xorStream key iv 0 pt)) := by
  unfold encryptSecret
  rw [h]

/-- A successful decrypt implies the key was readable (`getKey` runs inside
`decryptSecret`). -/
theorem decryptSecret_ok_getKey (env : ProcEnv) (payload : List Char) (x : List Nat)
    (h : decryptSecret env payload = .ok x) : ∃ key, getKey env = .ok key := by
  unfold decryptSecret at h
  split at h
  · split at h
    · exact absurd h (by simp)
    · split at h
      · exact absurd h (by simp)
      · rename_i key hk
        exact ⟨key, hk⟩
  · exact absurd h (by simp)

/-- Evaluating `decryptSecret` on a genuine `encryptSecret` payload with
byte-valued components: the encoder/decoder round trip plus the tag check. -/
theorem decryptSecret_encryptSecret (env : ProcEnv) (key iv pt : List Nat)
    (hkey : getKey env = .ok key) (hivne : iv ≠ []) (hptne : pt ≠ [])
    (hivB : ∀ b ∈ iv, b < 256) (hptB : ∀ b ∈ pt, b < 256) :
    decryptSecret env (mkPayload iv (gcmTag iv (xorStream key iv 0 pt)) (xorStream key iv 0 pt)) =
      .ok pt := by
  set ct := xorStream key iv 0 pt with hct
  have hctB : ∀ b ∈ ct, b < 256 := xorStream_lt key iv 0 pt hptB
  have hctne : ct ≠ [] := by
    rcases pt with _ | ⟨p, ps⟩
    · exact absurd rfl hptne
    · simp [hct, xorStream]
  have htagB : ∀ b ∈ gcmTag iv ct, b < 256 := by
    intro b hb
    rcases List.mem_append.1 hb with hb | hb
    · exact hivB b hb
    · exact hctB b hb
  have htagne : gcmTag iv ct ≠ [] := by
    simp [gcmTag, hivne]
  rw [decryptSecret_mkPayload env key iv (gcmTag iv ct) ct hkey hivne htagne hctne]
  rw [b64Decode_b64Encode iv hivB, b64Decode_b64Encode ct hctB,
    b64Decode_b64Encode (gcmTag iv ct) htagB]
  rw [if_pos rfl, hct, xorStream_involutive]

/-! ## Concrete fixtures used by witnesses and counterexamples -/

def keyGood : List Nat := List.replicate 32 7

/-- An environment with a valid 32-byte key. -/
def envGood : ProcEnv :=
  { encryptionKey := some (b64Encode keyGood)
    nodeEnv := none, port := none, whoopClientId := none, whoopScopes := none }

/-- `ENCRYPTION_KEY` absent. -/
def envNoKey : ProcEnv :=
  { encryptionKey := none
    nodeEnv := none, port := none, whoopClientId := none, whoopScopes := none }

/-- `ENCRYPTION_KEY` decoding to 31 bytes. -/
def env31 : ProcEnv :=
  { encryptionKey := some (b64Encode (List.replicate 31 7))
    nodeEnv := none, port := none, whoopClientId := none, whoopScopes := none }

/-- A fixed 12-byte IV standing for `crypto.randomBytes(12)`. -/
def ivA : List Nat := List.replicate 12 1

/-- Encrypt a concrete token under `envGood`/`ivA`. -/
def encTok (t : List Nat) : List Char :=
  match encryptSecret envGood ivA t with
  | .ok p => p
  | .error _ => []

/-- The payload `encryptSecret` produces for the one-byte plaintext `[104]`
(`"h"`): the string `AQEBAQEBAQEBAQEB.AQEBAQEBAQEBAQEBMg==.Mg==`. -/
def payloadC6 : List Char := encTok [104]

/-- `payloadC6` with the single character at index 39 (the second character
of the ciphertext component `Mg==`) flipped from `g` to `h`.  The flipped
bits are the four trailing bits the base64 decoder drops, so the decoded
bytes are unchanged. -/
def payloadC6flip : List Char := payloadC6.set 39 'h'

/-! ## Claims -/

set_option maxRecDepth 100000

/-- **C5 (counterexample).** The claim says an absent or non-32-byte
`ENCRYPTION_KEY` makes the engine fail fatally at startup.  In the code,
nothing executed at startup reads the key: the startup computation is
identical with no key, a 31-byte key or a valid key, and the failure
surfaces only when `encryptSecret`/`decryptSecret` is called. -/
theorem C5_startup_ignores_key_counterexample :
    serverStartup envNoKey = serverStartup envGood ∧
    serverStartup env31 = serverStartup envGood ∧
    encryptSecret envNoKey ivA [104] = .error "ENCRYPTION_KEY is not set" ∧
    encryptSecret env31 ivA [104] = .error "ENCRYPTION_KEY must be a 32-byte base64 string" ∧
    decryptSecret envNoKey payloadC6 = .error "ENCRYPTION_KEY is not set" ∧
    decryptSecret env31 payloadC6 = .error "ENCRYPTION_KEY must be a 32-byte base64 string" := by
  decide

/-- **C5 (amended).** The key is read and validated inside every
`encryptSecret`/`decryptSecret` call rather than once at startup: the startup
computation does not depend on `ENCRYPTION_KEY` at all, and when `getKey`
rejects the key (absent, or not exactly 32 bytes), each `encryptSecret` call
and each `decryptSecret` call on a well-formed payload fails with that
error. -/
theorem C5_key_checked_per_call (e : ProcEnv) (k k' : Option (List Char)) (env : ProcEnv)
    (iv pt : List Nat) (msg : String) (ivb tagb ctb : List Nat)
    (hk : getKey env = .error msg) (hivb : ivb ≠ []) (htagb : tagb ≠ []) (hctb : ctb ≠ []) :
    serverStartup { e with encryptionKey := k } = serverStartup { e with encryptionKey := k' } ∧
    encryptSecret env iv pt = .error msg ∧
    decryptSecret env (mkPayload ivb tagb ctb) = .error msg := by
  refine ⟨rfl, ?_, ?_⟩
  · unfold encryptSecret
    rw [hk]
  · unfold decryptSecret
    rw [splitOnDot_mkPayload]
    simp only [b64Encode_ne_nil ivb hivb, b64Encode_ne_nil tagb htagb,
      b64Encode_ne_nil ctb hctb, or_self, or_false, if_false, hk]

/-- **C5 (witness).** -/
theorem C5_key_checked_per_call_witness :
    serverStartup { envGood with encryptionKey := none } =
      serverStartup { envGood with encryptionKey := some ['x'] } ∧
    encryptSecret envNoKey ivA [104] = .error "ENCRYPTION_KEY is not set" ∧
    decryptSecret envNoKey (mkPayload [1] [2] [3]) = .error "ENCRYPTION_KEY is not set" :=
  C5_key_checked_per_call envGood none (some ['x']) envNoKey ivA [104]
    "ENCRYPTION_KEY is not set" [1] [2] [3] (by decide) (by simp) (by simp) (by simp)

/-- **C6 (counterexample).** Both halves of the claim fail on the code.
(1) The empty plaintext round trip fails: `encryptSecret("")` emits an empty
third base64 component, which `decryptSecret` rejects as a malformed payload.
(2) Not every single-byte flip of a payload makes `decryptSecret` fail:
flipping the byte at index 39 of `payloadC6` (`g` → `h`, a change confined to
the four trailing base64 bits the decoder drops) leaves the decoded
IV/tag/ciphertext unchanged, and `decryptSecret` returns the original
plaintext. -/
theorem C6_crypto_counterexample :
    encryptSecret envGood ivA [104] = .ok payloadC6 ∧
    payloadC6flip.length = payloadC6.length ∧
    ((List.range payloadC6.length).countP
      fun i => payloadC6flip.getD i ' ' != payloadC6.getD i ' ') = 1 ∧
    decryptSecret envGood payloadC6flip = .ok [104] ∧
    (match encryptSecret envGood ivA [] with
     | .ok p => decryptSecret envGood p
     | .error e => .error e) = .error "Invalid encrypted payload format" := by
  decide

/-- **C6 (amended).** With a valid key: for every nonempty byte plaintext,
`decryptSecret (encryptSecret x) = x`; and any change to the decoded
components is caught — replacing the authentication tag bytes, the
ciphertext bytes, or the IV bytes with any different byte list (in
particular, flipping any single byte of one of them) makes `decryptSecret`
fail integrity verification instead of returning a value. -/
theorem C6_roundtrip_and_integrity (env : ProcEnv) (key iv pt : List Nat)
    (hkey : getKey env = .ok key) (hiv : iv ≠ []) (hpt : pt ≠ [])
    (hivB : ∀ b ∈ iv, b < 256) (hptB : ∀ b ∈ pt, b < 256) :
    (∃ p, encryptSecret env iv pt = .ok p ∧ decryptSecret env p = .ok pt) ∧
    (∀ tag' : List Nat, tag' ≠ gcmTag iv (xorStream key iv 0 pt) → tag' ≠ [] →
      (∀ b ∈ tag', b < 256) →
      decryptSecret env (mkPayload iv tag' (xorStream key iv 0 pt)) =
        .error "Unsupported state or unable to authenticate data") ∧
    (∀ ct' : List Nat, ct' ≠ xorStream key iv 0 pt → ct' ≠ [] → (∀ b ∈ ct', b < 256) →
      decryptSecret env (mkPayload iv (gcmTag iv (xorStream key iv 0 pt)) ct') =
        .error "Unsupported state or unable to authenticate data") ∧
    (∀ iv' : List Nat, iv' ≠ iv → iv' ≠ [] → (∀ b ∈ iv', b < 256) →
      decryptSecret env (mkPayload iv' (gcmTag iv (xorStream key iv 0 pt))
        (xorStream key iv 0 pt)) =
        .error "Unsupported state or unable to authenticate data") := by
  have hctB : ∀ b ∈ xorStream key iv 0 pt, b < 256 := xorStream_lt key iv 0 pt hptB
  have hctne : xorStream key iv 0 pt ≠ [] := by
    rcases pt with _ | ⟨p, ps⟩
    · exact absurd rfl hpt
    · simp [xorStream]
  have htagB : ∀ b ∈ gcmTag iv (xorStream key iv 0 pt), b < 256 := by
    intro b hb
    rcases List.mem_append.1 hb with hb | hb
    · exact hivB b hb
    · exact hctB b hb
  refine ⟨?_, ?_, ?_, ?_⟩
  · exact ⟨_, encryptSecret_ok env key iv pt hkey,
      decryptSecret_encryptSecret env key iv pt hkey hiv hpt hivB hptB⟩
  · intro tag' htag htagne htagB'
    rw [decryptSecret_mkPayload env key iv tag' (xorStream key iv 0 pt) hkey hiv htagne hctne]
    rw [b64Decode_b64Encode iv hivB, b64Decode_b64Encode _ hctB, b64Decode_b64Encode tag' htagB']
    rw [if_neg htag]
  · intro ct' hct hctne' hctB'
    rw [decryptSecret_mkPayload env key iv _ ct' hkey hiv (by simp [gcmTag, hiv]) hctne']
    rw [b64Decode_b64Encode iv hivB, b64Decode_b64Encode ct' hctB', b64Decode_b64Encode _ htagB]
    rw [if_neg (by
      intro h
      exact hct (List.append_cancel_left h).symm)]
  · intro iv' hiv' hivne' hivB'
    rw [decryptSecret_mkPayload env key iv' _ _ hkey hivne' (by simp [gcmTag, hiv]) hctne]
    rw [b64Decode_b64Encode iv' hivB', b64Decode_b64Encode _ hctB, b64Decode_b64Encode _ htagB]
    rw [if_neg (by
      intro h
      simp only [gcmTag] at h
      exact hiv' (List.append_cancel_right h).symm)]

/-- **C6 (witness).** -/
theorem C6_roundtrip_and_integrity_witness :
    (∃ p, encryptSecret envGood ivA [104] = .ok p ∧ decryptSecret envGood p = .ok [104]) ∧
    decryptSecret envGood
      (mkPayload ivA [9, 9] (xorStream keyGood ivA 0 [104])) =
      .error "Unsupported state or unable to authenticate data" ∧
    decryptSecret envGood
      (mkPayload ivA (gcmTag ivA (xorStream keyGood ivA 0 [104])) [9]) =
      .error "Unsupported state or unable to authenticate data" := by
  obtain ⟨h1, h2, h3, h4⟩ :=
    C6_roundtrip_and_integrity envGood keyGood ivA [104] (by decide) (by decide) (by decide)
      (by decide) (by decide)
  exact ⟨h1, h2 [9, 9] (by decide) (by decide) (by decide),
    h3 [9] (by decide) (by decide) (by decide)⟩

theorem find?_update_first {α : Type} (p : α → Bool) (g : α → α) (l : List α) (old : α)
    (h : l.find? p = some old) (hg : ∀ a, p a = true → p (g a) = true) :
    (l.map fun a => if p a then g a else a).find? p = some (g old) := by
  induction l with
  | nil => simp at h
  | cons x t ih =>
      by_cases hx : p x = true
      · rw [List.find?_cons_of_pos _ hx] at h
        injection h with h
        subst h
        simp only [List.map_cons, if_pos hx]
        rw [List.find?_cons_of_pos _ (hg x hx)]
      · have hxf : ¬ p x = true := hx
        rw [List.find?_cons_of_neg _ hxf] at h
        simp only [List.map_cons, if_neg hxf]
        rw [List.find?_cons_of_neg _ hxf]
        exact ih h

/-- Store fixture for the C7 example: one row `{sleep_perf: 70,
recovery: null}`. -/
def dbC7 : DB :=
  { members := []
    metrics := [{ memberId := 1, date := "2025-01-01", sleepTotalSec := none
                  sleepPerfPct := some 70, sleepConsistencyPct := none
                  recoveryScore := none, strainScore := none, updatedAt := 1 }] }

/-- **C7.** Upserting into an existing `daily_metrics` row merges with
COALESCE semantics: each non-null incoming field overwrites and each null
incoming field keeps the stored value (`coalesceQ`), with `updated_at` reset;
and concretely, merging `{recovery: 80}` into `{sleep_perf: 70,
recovery: null}` yields `{sleep_perf: 70, recovery: 80}`. -/
theorem C7_upsert_coalesce (db : DB) (now : ℤ) (mid : Nat) (date : String) (v : MemberVals)
    (old : MetricRow) (h : findMetric db mid date = some old) :
    findMetric (upsertDailyMetrics db now mid date v) mid date =
      some { memberId := old.memberId, date := old.date
             sleepTotalSec := coalesceQ v.sleepTotalSec old.sleepTotalSec
             sleepPerfPct := coalesceQ v.sleepPerfPct old.sleepPerfPct
             sleepConsistencyPct := coalesceQ v.sleepConsistencyPct old.sleepConsistencyPct
             recoveryScore := coalesceQ v.recoveryScore old.recoveryScore
             strainScore := coalesceQ v.strainScore old.strainScore
             updatedAt := now } ∧
    (∀ (x : ℚ) (o : Option ℚ), coalesceQ (some x) o = some x) ∧
    (∀ o : Option ℚ, coalesceQ none o = o) ∧
    findMetric (upsertDailyMetrics dbC7 5 1 "2025-01-01" ⟨none, none, none, some 80, none⟩)
        1 "2025-01-01" =
      some { memberId := 1, date := "2025-01-01", sleepTotalSec := none
             sleepPerfPct := some 70, sleepConsistencyPct := none
             recoveryScore := some 80, strainScore := none, updatedAt := 5 } := by
  refine ⟨?_, fun x o => rfl, fun o => rfl, by decide⟩
  unfold upsertDailyMetrics
  rw [if_pos (by rw [h]; rfl)]
  unfold findMetric at h ⊢
  exact find?_update_first _ _ db.metrics old h (by
    intro a ha
    simpa using ha)

/-- Payloads whose only recovery-keyed number sits under `n` wrapper
objects. -/
def deepNest : Nat → JVal
  | 0 => .obj [("recovery", .num 50)]
  | n + 1 => .obj [("a", deepNest n)]

/-- **C8.** The extractor behaves exactly as specified: it equals the
spec-described extractor (bounded walk collecting numeric fields whose
lowercased key contains `recovery` or equals `score`, normalizing `[0,1]`
candidates by `* 100`, discarding values outside `[0,100]`, returning the
maximum candidate or "no value" for an empty candidate set); the three
worked examples hold (`{recovery: {score: 0.82}} → 82`, `{score: 55} → 55`,
no matching keys → `none`, never 0); and the depth bound cuts off: a
recovery field under four wrappers (the last entries visited at depth 0) is
found, under five it is not. -/
theorem C8_extractRecoveryScore_behaviour :
    (∀ j : JVal, extractRecoveryScore j = specExtractRecoveryScore j) ∧
    extractRecoveryScore (.obj [("recovery", .obj [("score", .num (82/100))])]) = some 82 ∧
    extractRecoveryScore (.obj [("score", .num 55)]) = some 55 ∧
    extractRecoveryScore
      (.obj [("foo", .num 10), ("bar", .str "x"), ("nested", .obj [("baz", .null)])]) = none ∧
    extractRecoveryScore (deepNest 4) = some 50 ∧
    extractRecoveryScore (deepNest 5) = none := by
  refine ⟨extractRecoveryScore_eq_spec, ?_, by decide, by decide, by decide, by decide⟩
  norm_num [extractRecoveryScore, visitDepth, numCandidates, keyHasRecovery, keyIsScore,
    lowerStr, charsContain, charsStartWith, codeNorm, maxCandidate]
  decide

/-- **C7 (witness).** -/
theorem C7_upsert_coalesce_witness :
    findMetric (upsertDailyMetrics dbC7 5 1 "2025-01-01" ⟨none, none, none, some 80, none⟩)
        1 "2025-01-01" =
      some { memberId := 1, date := "2025-01-01", sleepTotalSec := none
             sleepPerfPct := some 70, sleepConsistencyPct := none
             recoveryScore := some 80, strainScore := none, updatedAt := 5 } :=
  (C7_upsert_coalesce dbC7 5 1 "2025-01-01" ⟨none, none, none, some 80, none⟩
    { memberId := 1, date := "2025-01-01", sleepTotalSec := none, sleepPerfPct := some 70
      sleepConsistencyPct := none, recoveryScore := none, strainScore := none, updatedAt := 1 }
    (by decide)).1

theorem sessionsHas_stop (sid : String) (s : SessionMap) :
    sessionsHas (stopTokenRefreshForSession sid s) sid = false := by
  unfold sessionsHas stopTokenRefreshForSession
  induction s with
  | nil => rfl
  | cons kv t ih =>
      rw [List.filter_cons]
      by_cases hk : kv.1 = sid
      · rw [show (kv.1 != sid) = false by simp [hk]]
        exact ih
      · rw [show (kv.1 != sid) = true by simp [hk]]
        simp [List.any_cons, hk, ih]

/-- A session fixture: one live background-refresh handle. -/
def sessC4 : SessionMap := [("s1", ⟨some "atok", [1, 2, 3], some 5⟩)]

/-- A provider whose token refresh always fails transiently. -/
def pvRefreshFails : Provider :=
  { refreshAccessToken := fun _ => .error ⟨some 500, none⟩
    fetch := fun _ _ => .error ⟨none, none⟩ }

/-- **C4 (counterexample).** The claim says a failed periodic refresh leaves
the handle registered.  In the code the interval callback's `catch` calls
`stopTokenRefreshForSession` (its comment: "Clear the interval on failure"),
so after one failing tick the handle is gone and `/auth/status` reports
`backgroundRefresh: false`. -/
theorem C4_failure_tears_down_counterexample :
    authStatusBackgroundRefresh sessC4 "s1" = true ∧
    backgroundRefreshTick pvRefreshFails 0 "s1" [1, 2, 3] sessC4 = [] ∧
    authStatusBackgroundRefresh (backgroundRefreshTick pvRefreshFails 0 "s1" [1, 2, 3] sessC4)
      "s1" = false := by
  decide

/-- **C4 (amended).** When a periodic 15-minute refresh call fails, the
catch block tears the handle down: the tick equals
`stopTokenRefreshForSession` on the session map (the handle and its tokens
are removed, not kept), and the caller-facing status endpoint subsequently
reports the background timer as not registered. -/
theorem C4_failure_tears_down (pv : Provider) (now : ℚ) (sid : String)
    (tok : List Nat) (s : SessionMap) (e : AxiosFailure)
    (h : pv.refreshAccessToken tok = .error e) :
    backgroundRefreshTick pv now sid tok s = stopTokenRefreshForSession sid s ∧
    authStatusBackgroundRefresh (backgroundRefreshTick pv now sid tok s) sid = false := by
  have ht : backgroundRefreshTick pv now sid tok s = stopTokenRefreshForSession sid s := by
    unfold backgroundRefreshTick
    rw [h]
  exact ⟨ht, by rw [ht]; exact sessionsHas_stop sid s⟩

/-- **C4 (witness).** -/
theorem C4_failure_tears_down_witness :
    backgroundRefreshTick pvRefreshFails 0 "s1" [1, 2, 3] sessC4 =
      stopTokenRefreshForSession "s1" sessC4 ∧
    authStatusBackgroundRefresh (backgroundRefreshTick pvRefreshFails 0 "s1" [1, 2, 3] sessC4)
      "s1" = false :=
  C4_failure_tears_down pvRefreshFails 0 "s1" [1, 2, 3] sessC4 ⟨some 500, none⟩ rfl

/-! ### Aggregation-pass fixtures -/

/-- Member 1, enrolled with token `[1,2,3]`. -/
def mAlice : MemberRow :=
  { id := 1, whoopUserId := "u1", displayName := "Alice", avatarUrl := none
    refreshTokenEnc := encTok [1, 2, 3], lastRefreshedAt := none }

/-- Member 2, enrolled with token `[4,5,6]`. -/
def mBob : MemberRow :=
  { id := 2, whoopUserId := "u2", displayName := "Bob", avatarUrl := none
    refreshTokenEnc := encTok [4, 5, 6], lastRefreshedAt := none }

/-- C1 fixture: Alice has a cached strain value (10) from 10 minutes before
`nowC1`, so the pass attempts a refresh for her. -/
def rowC1 : MetricRow :=
  { memberId := 1, date := "2025-01-01", sleepTotalSec := none, sleepPerfPct := none
    sleepConsistencyPct := none, recoveryScore := none, strainScore := some 10
    updatedAt := 1000000 }

def nowC1 : ℤ := 1600000

def dbC1 : DB := { members := [mAlice], metrics := [rowC1] }

/-- A provider that reports the stored credential as permanently invalid. -/
def pvInvalidGrant : Provider :=
  { refreshAccessToken := fun _ => .error ⟨some 401, some (.obj [("error", .str "invalid_grant")])⟩
    fetch := fun _ _ => .error ⟨some 500, none⟩ }

/-- **C1.** The claim is half right on this input: after the pass the member
IS absent from the Member store (deleted, with their snapshot row cascaded),
but they are NOT absent from the returned rank lists — the catch block falls
back to the already-read cached values after deleting the member, so Alice's
cached strain still appears on the returned strain list of the very pass that
deleted her.  This contradicts the claim, the spec ("exclude them from this
and all future aggregations") and the code's own comment ("remove this member
so they disappear from the leaderboard"). -/
theorem C1_invalid_grant_member_still_listed :
    (leaderboardPass envGood nowC1 "2025-01-01" "" ivA pvInvalidGrant dbC1).1.members = [] ∧
    (leaderboardPass envGood nowC1 "2025-01-01" "" ivA pvInvalidGrant dbC1).1.metrics = [] ∧
    (leaderboardPass envGood nowC1 "2025-01-01" "" ivA pvInvalidGrant dbC1).2.1.strain =
      [⟨"Alice", 10, none, none, none⟩] ∧
    (leaderboardPass envGood nowC1 "2025-01-01" "" ivA pvInvalidGrant dbC1).2.2 =
      [.tokenRefresh [1, 2, 3], .memberDeleted "u1"] := by
  decide

/-! ### The end-to-end two-member scenario (C2)

Member 1 (Alice) has a cached row holding strain 3.2 (= `mkRat 16 5`) and
recovery 60.  The schema has a single `updated_at` per row, so a "strain aged
2 minutes, recovery aged 2 hours" state is not representable: the row carries
the one timestamp written when the strain was cached, 2 minutes ago.  Member
2 (Bob) has no cached row.  The provider serves Bob's full fetch. -/

def nowC2 : ℤ := 10000000

def rowC2 : MetricRow :=
  { memberId := 1, date := "2025-01-01", sleepTotalSec := none, sleepPerfPct := none
    sleepConsistencyPct := none, recoveryScore := some 60, strainScore := some (mkRat 16 5)
    updatedAt := nowC2 - 120000 }

def dbC2 : DB := { members := [mAlice, mBob], metrics := [rowC2] }

def pvC2 : Provider :=
  { refreshAccessToken := fun t =>
      if t = [4, 5, 6] then .ok ⟨"at2", none, none⟩ else .error ⟨none, none⟩
    fetch := fun ep _ =>
      match ep with
      | .sleepList => .ok (.obj [("records", .arr [.obj [("score", .obj
          [("sleep_performance_percentage", .num 90),
           ("sleep_consistency_percentage", .num 80),
           ("slow_wave_sleep_minutes", .num 100),
           ("rem_sleep_minutes", .num 90),
           ("light_sleep_minutes", .num 200)])]])])
      | .recoveryList => .ok (.obj [("records", .arr [.obj [("score", .num 55)]])])
      | .cycleList => .ok (.obj [("records", .arr [.obj [("score", .obj
          [("strain", .num 12)])]])])
      | .cycleRecovery => .error ⟨some 404, none⟩ }

/-- **C2 (counterexample).** The claim says the non-forced pass "re-fetches
member 1's recovery from the provider".  Because `daily_metrics` has a single
`updated_at` per row, member 1's row is 2 minutes old, which is within the
5-minute strain window, so the pass takes the fresh-cache path for member 1:
it makes no provider call at all for her (`trace = []`) and reuses the
2-hour-old cached recovery value 60 rather than refreshing it. -/
theorem C2_no_recovery_refetch_counterexample :
    (processMember envGood nowC2 "2025-01-01" "" ivA pvC2 dbC2 mAlice).trace = [] ∧
    (processMember envGood nowC2 "2025-01-01" "" ivA pvC2 dbC2 mAlice).vals.recoveryScore =
      some 60 ∧
    (processMember envGood nowC2 "2025-01-01" "" ivA pvC2 dbC2 mAlice).db = dbC2 := by
  decide

def mBobTouched : MemberRow := { mBob with lastRefreshedAt := some nowC2 }

def rowBobNew : MetricRow :=
  { memberId := 2, date := "2025-01-01", sleepTotalSec := some 23400, sleepPerfPct := some 90
    sleepConsistencyPct := some 80, recoveryScore := some 55, strainScore := some 12
    updatedAt := nowC2 }

set_option maxHeartbeats 2000000 in
/-- **C2 (amended).** In the two-member scenario as it is actually
representable (one `updated_at` per row, set 2 minutes ago when member 1's
strain was cached): the non-forced pass reuses ALL of member 1's cached
values — strain 3.2 and the 2-hour-old recovery 60 — without any provider
call, fully fetches member 2 (token refresh, sleep, recovery and cycle
endpoints), and returns three descending rank lists containing exactly the
members for whom a value (cached or fresh) was obtainable: sleep = [Bob],
recovery = [Alice 60, Bob 55], strain = [Bob 12, Alice 3.2]. -/
theorem C2_scenario_amended :
    leaderboardPass envGood nowC2 "2025-01-01" "" ivA pvC2 dbC2 =
      ({ members := [mAlice, mBobTouched], metrics := [rowC2, rowBobNew] },
       { sleep := [⟨"Bob", 90, some 23400, some 80, none⟩]
         recovery := [⟨"Alice", 60, none, none, none⟩, ⟨"Bob", 55, none, none, none⟩]
         strain := [⟨"Bob", 12, none, none, none⟩, ⟨"Alice", mkRat 16 5, none, none, none⟩]
         date := "2025-01-01" },
       [.tokenRefresh [4, 5, 6], .touchOnly 2, .fetch .sleepList "at2",
        .fetch .recoveryList "at2", .fetch .cycleList "at2"]) := by
  have h1 : processMember envGood nowC2 "2025-01-01" "" ivA pvC2 dbC2 mAlice =
      ⟨dbC2, ⟨none, none, none, some 60, some (mkRat 16 5)⟩, []⟩ := by decide
  have hdec : decryptSecret envGood (encTok [4,5,6]) = .ok [4,5,6] := by decide
  have hrefresh : pvC2.refreshAccessToken [4,5,6] = .ok ⟨"at2", none, none⟩ := rfl
  have hcache : findMetric dbC2 2 "2025-01-01" = none := by decide
  have hfind2 : findMetric (touchMemberRefreshed dbC2 2 nowC2) 2 "2025-01-01" = none := by
    decide
  have hfd1 : Int.fdiv 181 2 = 90 := by decide
  have hfd2 : Int.fdiv 161 2 = 80 := by decide
  have h2 : processMember envGood nowC2 "2025-01-01" "" ivA pvC2 dbC2 mBob =
      ⟨{ members := [mAlice, mBobTouched], metrics := [rowC2, rowBobNew] },
        ⟨some 23400, some 90, some 80, some 55, some 12⟩,
        [.tokenRefresh [4, 5, 6], .touchOnly 2, .fetch .sleepList "at2",
         .fetch .recoveryList "at2", .fetch .cycleList "at2"]⟩ := by
    norm_num +decide [processMember, fetchPath, hdec, hrefresh, hcache, ageMsOf, ageGt,
      needStrainFetchOf, needHourlyFetchOf, sleepPhase, sleepRecordStep, recordsOf,
      firstRecord, recoveryPhase, recoveryPrimary, recoveryCycleFallback, strainPhase,
      jsNumber, getF, getFO, jsOr, jsCoalesce, chain3, chain4, jsTruthy, jsTruthyO,
      jsNullish, nOr0, isNumField, jsDateMs, jsRound, scaleRec, pvC2, staleStrainMs,
      staleHourlyMs, mBob, List.find?, Option.map, upsertDailyMetrics, coalesceQ,
      hfind2, hfd1, hfd2]
  simp only [leaderboardPass, List.foldl, h1, h2]
  norm_num +decide [pushBoards, sortByValueDesc, insertByValueDesc, List.foldr, mAlice,
    mBob, mBobTouched]

/-- A provider failing with HTTP 400 and a body that carries no
invalid-grant marker (e.g. a rate-limit error). -/
def pv400NoMarker : Provider :=
  { refreshAccessToken := fun _ =>
      .error ⟨some 400, some (.obj [("error", .str "rate_limited")])⟩
    fetch := fun _ _ => .error ⟨none, none⟩ }

/-- **C10.** The invalid-grant classifier treats the body check as an
alternative trigger, not a required conjunct: any failure with status 400 or
401 classifies as invalid-grant regardless of the body, and concretely a
400-status failure whose body is `{error: "rate_limited"}` (no invalid-grant
marker) still causes the member to be deleted from the store during the
pass. -/
theorem C10_status_alone_triggers_deletion :
    (∀ d : Option JVal, isInvalidGrant (some 400) d = true ∧ isInvalidGrant (some 401) d = true) ∧
    isInvalidGrant (some 400) (some (.obj [("error", .str "rate_limited")])) = true ∧
    (leaderboardPass envGood nowC1 "2025-01-01" "" ivA pv400NoMarker dbC1).1.members = [] ∧
    (leaderboardPass envGood nowC1 "2025-01-01" "" ivA pv400NoMarker dbC1).2.2 =
      [.tokenRefresh [1, 2, 3], .memberDeleted "u1"] := by
  refine ⟨fun d => ⟨by simp [isInvalidGrant], by simp [isInvalidGrant]⟩, by decide, by decide,
    by decide⟩

/-- Whether the trace contains a Provider Client call to the endpoint. -/
def hasFetch (t : List Event) (ep : Endpoint) : Bool :=
  t.any fun e =>
    match e with
    | .fetch ep' _ => ep' == ep
    | _ => false

theorem hasFetch_append (a b : List Event) (ep : Endpoint) :
    hasFetch (a ++ b) ep = (hasFetch a ep || hasFetch b ep) := by
  simp [hasFetch, List.any_append]

theorem sleepPhase_trace (pv : Provider) (acc : String) :
    (sleepPhase pv acc).2 = [.fetch .sleepList acc] := by
  unfold sleepPhase
  rcases h : pv.fetch .sleepList acc with e | resp <;> simp [h]

theorem recoveryCycleFallback_trace (pv : Provider) (acc : String) :
    (recoveryCycleFallback pv acc).2 = [.fetch .cycleList acc] ∨
    (recoveryCycleFallback pv acc).2 = [.fetch .cycleList acc, .fetch .cycleRecovery acc] := by
  unfold recoveryCycleFallback
  rcases h : pv.fetch .cycleList acc with e | resp
  · simp
  · by_cases ht : jsTruthyO (firstRecord resp) = true
    · simp only [ht, if_true]
      rcases hr : jsNumber (chain3 (getFO (getFO (firstRecord resp) "score") "recovery_score")
          (getFO (firstRecord resp) "recovery_score")
          (getFO (getFO (firstRecord resp) "recovery") "score")) with _ | q
      · simp only [hr]
        by_cases hn : jsNullish (chain3 (getFO (firstRecord resp) "id")
            (getFO (firstRecord resp) "cycle_id") (getFO (firstRecord resp) "cycleId")) = true
        · simp [hn]
        · simp only [hn, if_false, Bool.false_eq_true]
          rcases h2 : pv.fetch .cycleRecovery acc with e2 | obj <;> simp [h2]
      · simp [hr]
    · simp [ht]

theorem recoveryPhase_trace (pv : Provider) (acc : String) :
    (recoveryPhase pv acc).2 = [.fetch .recoveryList acc] ∨
    (recoveryPhase pv acc).2 = [.fetch .recoveryList acc, .fetch .cycleList acc] ∨
    (recoveryPhase pv acc).2 =
      [.fetch .recoveryList acc, .fetch .cycleList acc, .fetch .cycleRecovery acc] := by
  unfold recoveryPhase
  rcases h : recoveryPrimary pv acc with _ | v
  · rcases recoveryCycleFallback_trace pv acc with hf | hf <;> simp [hf]
  · simp

theorem strainPhase_trace (pv : Provider) (acc : String) (rec0 : Option ℚ) :
    (strainPhase pv acc rec0).2 = [.fetch .cycleList acc] ∨
    (strainPhase pv acc rec0).2 = [.fetch .cycleList acc, .fetch .cycleRecovery acc] := by
  unfold strainPhase
  rcases h : pv.fetch .cycleList acc with e | resp
  · simp
  · by_cases hb : (rec0.isNone && jsTruthyO (firstRecord resp)) = true
    · simp only [hb, if_true]
      rcases hr : jsNumber (chain3 (getFO (getFO (firstRecord resp) "score") "recovery_score")
          (getFO (firstRecord resp) "recovery_score")
          (getFO (getFO (firstRecord resp) "recovery") "score")) with _ | q
      · simp only [hr]
        by_cases hn : jsNullish (chain3 (getFO (firstRecord resp) "id")
            (getFO (firstRecord resp) "cycle_id") (getFO (firstRecord resp) "cycleId")) = true
        · simp [hn]
        · simp only [hn, if_false, Bool.false_eq_true]
          rcases h2 : pv.fetch .cycleRecovery acc with e2 | obj
          · simp [h2]
          · simp only [h2]
            rcases hs : jsNumber (chain3 (getF obj "score") (getF obj "recovery_score")
                (getFO (getF obj "recovery") "score")) with _ | q2 <;> simp [hs]
      · simp [hr]
    · simp [hb]

theorem hasFetch_nil (ep : Endpoint) : hasFetch [] ep = false := rfl

theorem hasFetch_cons (e : Event) (t : List Event) (ep : Endpoint) :
    hasFetch (e :: t) ep =
      ((match e with | .fetch ep' _ => ep' == ep | _ => false) || hasFetch t ep) := by
  simp [hasFetch]

/-- Characterization of the fetch path's trace when the token phase succeeds
(`needStrainFetch = true`): token-phase events (never resource fetches),
then the sleep block's trace, the recovery block's trace (both empty when
the hourly class is fresh) and the strain block's trace. -/
theorem fetchPath_trace_decomp (env : ProcEnv) (now : ℤ) (todayStr : String) (iv : List Nat)
    (pv : Provider) (db : DB) (m : MemberRow) (cached : Option MetricRow) (needH : Bool)
    (key tok : List Nat) (td : TokenResponse)
    (hkey : getKey env = .ok key)
    (hdec : decryptSecret env m.refreshTokenEnc = .ok tok)
    (href : pv.refreshAccessToken tok = .ok td) :
    ∃ e2 t2 t3 t4,
      (fetchPath env now todayStr iv pv db m cached true needH).trace =
        .tokenRefresh tok :: e2 :: (t2 ++ t3 ++ t4) ∧
      (∀ ep a, e2 ≠ .fetch ep a) ∧
      t2 = (if needH then [.fetch .sleepList td.accessToken] else []) ∧
      t3 = (if needH then (recoveryPhase pv td.accessToken).2 else []) ∧
      t4 = (strainPhase pv td.accessToken
        (if needH then (recoveryPhase pv td.accessToken).1
         else match cached with | some c => c.recoveryScore | none => none)).2 := by
  unfold fetchPath
  simp only [hdec, href]
  rcases hrot : td.refreshTokenNew with _ | t2
  · refine ⟨.touchOnly m.id, if needH then [.fetch .sleepList td.accessToken] else [],
      if needH then (recoveryPhase pv td.accessToken).2 else [],
      (strainPhase pv td.accessToken
        (if needH then (recoveryPhase pv td.accessToken).1
         else match cached with | some c => c.recoveryScore | none => none)).2,
      ?_, by simp, rfl, rfl, rfl⟩
    rcases needH with _ | _ <;> simp [sleepPhase_trace]
  · simp only [ne_eq]
    by_cases hne : t2 = tok
    · rw [if_neg (not_not_intro hne)]
      refine ⟨.touchOnly m.id, if needH then [.fetch .sleepList td.accessToken] else [],
        if needH then (recoveryPhase pv td.accessToken).2 else [],
        (strainPhase pv td.accessToken
          (if needH then (recoveryPhase pv td.accessToken).1
           else match cached with | some c => c.recoveryScore | none => none)).2,
        ?_, by simp, rfl, rfl, rfl⟩
      rcases needH with _ | _ <;> simp [sleepPhase_trace]
    · rw [if_pos hne]
      rw [encryptSecret_ok env key iv t2 hkey]
      refine ⟨.persistRotatedToken m.id
        (mkPayload iv (gcmTag iv (xorStream key iv 0 t2)) (xorStream key iv 0 t2)),
        if needH then [.fetch .sleepList td.accessToken] else [],
        if needH then (recoveryPhase pv td.accessToken).2 else [],
        (strainPhase pv td.accessToken
          (if needH then (recoveryPhase pv td.accessToken).1
           else match cached with | some c => c.recoveryScore | none => none)).2,
        ?_, by simp, rfl, rfl, rfl⟩
      rcases needH with _ | _ <;> simp [sleepPhase_trace]

theorem event_match_false (e : Event) (ep : Endpoint) (he : ∀ ep' a, e ≠ .fetch ep' a) :
    (match e with | .fetch ep' _ => ep' == ep | _ => false) = false := by
  rcases e with _ | _ | _ | ⟨ep', a⟩ | _ <;> simp
  exact absurd rfl (he ep' a)

/-- **C3.** For a non-forced pass and a member with a cached `daily_metrics`
row (with a nonzero timestamp; the token phase succeeding), the Provider
Client is invoked for the strain class (the `/v2/cycle` list) iff the row's
age exceeds the 5-minute strain window, and the sleep/recovery class
endpoints (`/v2/activity/sleep`, `/v2/recovery`) are re-fetched iff the age
exceeds the 1-hour hourly window. -/
theorem C3_staleness_windows (env : ProcEnv) (now : ℤ) (todayStr : String) (iv : List Nat)
    (pv : Provider) (db : DB) (m : MemberRow) (c : MetricRow) (tok : List Nat)
    (td : TokenResponse)
    (hc : findMetric db m.id todayStr = some c)
    (hupd : c.updatedAt ≠ 0)
    (hdec : decryptSecret env m.refreshTokenEnc = .ok tok)
    (href : pv.refreshAccessToken tok = .ok td) :
    (hasFetch (processMember env now todayStr "" iv pv db m).trace .cycleList = true ↔
      staleStrainMs < now - c.updatedAt) ∧
    (hasFetch (processMember env now todayStr "" iv pv db m).trace .sleepList = true ↔
      staleHourlyMs < now - c.updatedAt) ∧
    (hasFetch (processMember env now todayStr "" iv pv db m).trace .recoveryList = true ↔
      staleHourlyMs < now - c.updatedAt) := by
  obtain ⟨key, hkey⟩ := decryptSecret_ok_getKey env m.refreshTokenEnc tok hdec
  by_cases hs : staleStrainMs < now - c.updatedAt
  · have hs' : (300000 : ℤ) < now - c.updatedAt := by simpa [staleStrainMs] using hs
    have hT : processMember env now todayStr "" iv pv db m =
        fetchPath env now todayStr iv pv db m (some c) true
          (needHourlyFetchOf "" (some (now - c.updatedAt))) := by
      simp [processMember, hc, needStrainFetchOf, ageMsOf, hupd, ageGt, staleStrainMs, hs']
    obtain ⟨e2, t2, t3, t4, htr, he2, ht2, ht3, ht4⟩ :=
      fetchPath_trace_decomp env now todayStr iv pv db m (some c)
        (needHourlyFetchOf "" (some (now - c.updatedAt))) key tok td hkey hdec href
    rw [hT, htr]
    by_cases hh : staleHourlyMs < now - c.updatedAt
    · have hh' : (3600000 : ℤ) < now - c.updatedAt := by simpa [staleHourlyMs] using hh
      have hneedH : needHourlyFetchOf "" (some (now - c.updatedAt)) = true := by
        simp [needHourlyFetchOf, ageGt, staleHourlyMs, hh']
      rw [hneedH] at ht2 ht3 ht4
      rw [if_pos rfl] at ht2 ht3
      subst ht2 ht3 ht4
      rcases strainPhase_trace pv td.accessToken
          (if true = true then (recoveryPhase pv td.accessToken).1
           else match (some c : Option MetricRow) with
                | some c => c.recoveryScore
                | none => none) with h4 | h4 <;>
        rcases recoveryPhase_trace pv td.accessToken with h3 | h3 | h3 <;>
          rw [h4, h3] <;>
            simp [hasFetch_cons, hasFetch_append, hasFetch_nil, event_match_false _ _ he2,
              hs, hh]
    · have hh' : ¬ (3600000 : ℤ) < now - c.updatedAt := by simpa [staleHourlyMs] using hh
      have hneedH : needHourlyFetchOf "" (some (now - c.updatedAt)) = false := by
        simp [needHourlyFetchOf, ageGt, staleHourlyMs, hh']
      rw [hneedH] at ht2 ht3 ht4
      rw [if_neg (by simp)] at ht2 ht3
      subst ht2 ht3 ht4
      rcases strainPhase_trace pv td.accessToken
          (if false = true then (recoveryPhase pv td.accessToken).1
           else match (some c : Option MetricRow) with
                | some c => c.recoveryScore
                | none => none) with h4 | h4 <;>
        rw [h4] <;>
          simp [hasFetch_cons, hasFetch_append, hasFetch_nil, event_match_false _ _ he2,
            hs, hh]
  · have hs' : ¬ (300000 : ℤ) < now - c.updatedAt := by simpa [staleStrainMs] using hs
    have hT : processMember env now todayStr "" iv pv db m = ⟨db, cacheFreshVals c, []⟩ := by
      simp [processMember, hc, needStrainFetchOf, ageMsOf, hupd, ageGt, staleStrainMs, hs']
    rw [hT]
    have hh : ¬ staleHourlyMs < now - c.updatedAt := by
      unfold staleHourlyMs
      omega
    simp [hasFetch, hs, hh]

/-- C3 witness fixture: cached row aged 6 minutes at `nowC3`. -/
def rowC3 : MetricRow :=
  { memberId := 1, date := "2025-01-01", sleepTotalSec := none, sleepPerfPct := none
    sleepConsistencyPct := none, recoveryScore := some 60, strainScore := some 10
    updatedAt := 1000000 }

def nowC3 : ℤ := 1360000

def dbC3 : DB := { members := [mAlice], metrics := [rowC3] }

def pvC3 : Provider :=
  { refreshAccessToken := fun t =>
      if t = [1, 2, 3] then .ok ⟨"at1", none, none⟩ else .error ⟨none, none⟩
    fetch := fun _ _ => .error ⟨some 500, none⟩ }

/-- **C3 (witness).** Age 6 minutes: the strain-class `/v2/cycle` call is
made and the sleep/recovery-class calls are not. -/
theorem C3_staleness_windows_witness :
    (hasFetch (processMember envGood nowC3 "2025-01-01" "" ivA pvC3 dbC3 mAlice).trace
        .cycleList = true ↔ staleStrainMs < nowC3 - rowC3.updatedAt) ∧
    (hasFetch (processMember envGood nowC3 "2025-01-01" "" ivA pvC3 dbC3 mAlice).trace
        .sleepList = true ↔ staleHourlyMs < nowC3 - rowC3.updatedAt) ∧
    (hasFetch (processMember envGood nowC3 "2025-01-01" "" ivA pvC3 dbC3 mAlice).trace
        .recoveryList = true ↔ staleHourlyMs < nowC3 - rowC3.updatedAt) :=
  C3_staleness_windows envGood nowC3 "2025-01-01" ivA pvC3 dbC3 mAlice rowC3 [1, 2, 3]
    ⟨"at1", none, none⟩ (by decide) (by decide) (by decide) rfl

theorem upsertDailyMetrics_members (db : DB) (now : ℤ) (mid : Nat) (date : String)
    (v : MemberVals) : (upsertDailyMetrics db now mid date v).members = db.members := by
  unfold upsertDailyMetrics
  split <;> rfl

theorem updateMemberToken_sets (db : DB) (mid : Nat) (enc : List Char) (now : ℤ) :
    ∀ r ∈ (updateMemberToken db mid enc now).members, r.id = mid → r.refreshTokenEnc = enc := by
  intro r hr hid
  unfold updateMemberToken at hr
  simp only [List.mem_map] at hr
  obtain ⟨r0, hr0, hmap⟩ := hr
  by_cases h0 : (r0.id == mid) = true
  · rw [if_pos h0] at hmap
    rw [← hmap]
  · rw [if_neg h0] at hmap
    subst hmap
    exact absurd (by simpa using hid) h0

/-- **C9.** Within one member's fetch sequence, when the token refresh
returns a rotated refresh token (present and different from the supplied
one), the rotated token is re-encrypted and persisted as the member's stored
row's `refresh_token_enc` as the event immediately after the refresh — i.e.
before any metric resource fetch is issued: every `fetch` event sits at
trace index ≥ 2 while the persist event is at index 1. -/
theorem C9_rotation_persisted_before_fetch (env : ProcEnv) (now : ℤ) (todayStr : String)
    (iv : List Nat) (pv : Provider) (db : DB) (m : MemberRow) (cached : Option MetricRow)
    (needH : Bool) (key tok : List Nat) (td : TokenResponse) (t2 : List Nat)
    (hkey : getKey env = .ok key)
    (hdec : decryptSecret env m.refreshTokenEnc = .ok tok)
    (href : pv.refreshAccessToken tok = .ok td)
    (hrot : td.refreshTokenNew = some t2) (hne : t2 ≠ tok) :
    ∃ enc rest,
      encryptSecret env iv t2 = .ok enc ∧
      (fetchPath env now todayStr iv pv db m cached true needH).trace =
        .tokenRefresh tok :: .persistRotatedToken m.id enc :: rest ∧
      (fetchPath env now todayStr iv pv db m cached true needH).db.members =
        (updateMemberToken db m.id enc now).members ∧
      (∀ r ∈ (updateMemberToken db m.id enc now).members, r.id = m.id →
        r.refreshTokenEnc = enc) ∧
      (∀ n ep a,
        (fetchPath env now todayStr iv pv db m cached true needH).trace.get? n =
          some (.fetch ep a) → 2 ≤ n) := by
  have henc := encryptSecret_ok env key iv t2 hkey
  have hT : ∃ rest,
      (fetchPath env now todayStr iv pv db m cached true needH).trace =
        .tokenRefresh tok ::
          .persistRotatedToken m.id
            (mkPayload iv (gcmTag iv (xorStream key iv 0 t2)) (xorStream key iv 0 t2)) :: rest ∧
      (fetchPath env now todayStr iv pv db m cached true needH).db.members =
        (updateMemberToken db m.id
          (mkPayload iv (gcmTag iv (xorStream key iv 0 t2)) (xorStream key iv 0 t2))
          now).members := by
    unfold fetchPath
    simp only [hdec, href, hrot, ne_eq]
    rw [if_pos hne]
    rw [henc]
    exact ⟨_, rfl, by simp [upsertDailyMetrics_members]⟩
  obtain ⟨rest, htr, hdb⟩ := hT
  refine ⟨_, rest, henc, htr, hdb, updateMemberToken_sets db m.id _ now, ?_⟩
  intro n ep a hget
  rw [htr] at hget
  match n with
  | 0 => simp at hget
  | 1 => simp at hget
  | Nat.succ (Nat.succ k) => omega

/-- A provider that rotates the refresh token on refresh. -/
def pvC9 : Provider :=
  { refreshAccessToken := fun t =>
      if t = [1, 2, 3] then .ok ⟨"at1", some [9, 9, 9], none⟩ else .error ⟨none, none⟩
    fetch := fun _ _ => .error ⟨some 500, none⟩ }

/-- **C9 (witness).** -/
theorem C9_rotation_persisted_before_fetch_witness :
    ∃ enc rest,
      encryptSecret envGood ivA [9, 9, 9] = .ok enc ∧
      (fetchPath envGood 0 "2025-01-01" ivA pvC9 dbC3 mAlice none true true).trace =
        .tokenRefresh [1, 2, 3] :: .persistRotatedToken mAlice.id enc :: rest ∧
      (fetchPath envGood 0 "2025-01-01" ivA pvC9 dbC3 mAlice none true true).db.members =
        (updateMemberToken dbC3 mAlice.id enc 0).members ∧
      (∀ r ∈ (updateMemberToken dbC3 mAlice.id enc 0).members, r.id = mAlice.id →
        r.refreshTokenEnc = enc) ∧
      (∀ n ep a,
        (fetchPath envGood 0 "2025-01-01" ivA pvC9 dbC3 mAlice none true true).trace.get? n =
          some (.fetch ep a) → 2 ≤ n) :=
  C9_rotation_persisted_before_fetch envGood 0 "2025-01-01" ivA pvC9 dbC3 mAlice none true
    keyGood [1, 2, 3] ⟨"at1", some [9, 9, 9], none⟩ [9, 9, 9] (by decide) (by decide) rfl rfl
    (by decide)
